import Mathlib

set_option maxRecDepth 8000

/-!
# Verification of the datadog-mcp tool handlers

Shallow embedding of `src/datadog_mcp/tools/get_monitor.py` and
`src/datadog_mcp/tools/monitor_edit.py`.

Decoded JSON payloads (tool-call arguments, monitor records fetched from the
remote API) are modelled by the inductive type `Json`.  Each handler is a
total Lean function; the stubbed outcome of the single remote call
(`fetch_monitor` / `update_monitor`) is an explicit argument of type
`RemoteOutcome`, and the handler's return value is paired with the remote
call it issued (`none` when no network call was made), so that "no network
call" properties are expressible.  Python `TypeError`s that the source can
raise while formatting a malformed record are modelled by the `Except`
error channel of the table renderer; they flow into the handler's generic
`except Exception` branch exactly as in the source.
-/

/-- A decoded JSON value, as produced by `response.json()` in the Python
client and as carried inside tool-call arguments.  Monitor records use only
`null`, integers, strings, arrays and objects; floats do not occur in the
modelled payloads and are omitted. -/
inductive Json where
  | null : Json
  | bool : Bool → Json
  | int : Int → Json
  | str : String → Json
  | arr : List Json → Json
  | obj : List (String × Json) → Json

/-- First-match association-list lookup: the semantics of `d[k]` /
`d.get(k)` on a Python dict represented as a key-value list. -/
def jget (m : List (String × Json)) (k : String) : Option Json :=
  match m with
  | [] => none
  | (k', v) :: rest => if k' = k then some v else jget rest k

/-- Fueled helper for `natDigits` (the fuel only bounds the recursion
depth; `n + 1` always suffices since `n / 10 < n`). -/
def natDigitsAux : Nat → Nat → List Char
  | 0, _ => []
  | fuel + 1, n =>
    if n < 10 then [Nat.digitChar n]
    else natDigitsAux fuel (n / 10) ++ [Nat.digitChar (n % 10)]

/-- Decimal digits of a natural number, most significant first
(the digits of Python's `str(n)` for `n ≥ 0`). -/
def natDigits (n : Nat) : List Char := natDigitsAux (n + 1) n

/-- The characters of Python's `str(n)` for an integer `n`. -/
def intChars (n : Int) : List Char :=
  if n < 0 then '-' :: natDigits (-n).toNat else natDigits n.toNat

/-- Python's `str(n)` for an integer. -/
def intStr (n : Int) : String := ⟨intChars n⟩

/-- `sep.join(xs)` for Python strings. -/
def pyJoin (sep : String) : List String → String
  | [] => ""
  | [x] => x
  | x :: xs => x ++ sep ++ pyJoin sep xs

mutual
/-- Python `repr` of a decoded JSON value (the form `str` falls back to for
containers).  String `repr` quoting is modelled without escape sequences;
no claim exercises container rendering, but it keeps `pyStr` total. -/
def pyRepr : Json → String
  | .null => "None"
  | .bool b => if b then "True" else "False"
  | .int n => intStr n
  | .str s => "'" ++ s ++ "'"
  | .arr xs => "[" ++ pyReprItems xs ++ "]"
  | .obj kvs => "\x7b" ++ pyReprMembers kvs ++ "\x7d"

/-- Comma-separated `repr`s of list items. -/
def pyReprItems : List Json → String
  | [] => ""
  | [x] => pyRepr x
  | x :: xs => pyRepr x ++ ", " ++ pyReprItems xs

/-- Comma-separated `repr`s of dict entries. -/
def pyReprMembers : List (String × Json) → String
  | [] => ""
  | [(k, v)] => "'" ++ k ++ "': " ++ pyRepr v
  | (k, v) :: kvs => "'" ++ k ++ "': " ++ pyRepr v ++ ", " ++ pyReprMembers kvs
end

/-- Python `str()` of a decoded JSON value, as used by f-string
interpolation: `str(None) = "None"`, integers in decimal, strings verbatim,
containers via `repr`. -/
def pyStr : Json → String
  | .null => "None"
  | .bool b => if b then "True" else "False"
  | .int n => intStr n
  | .str s => s
  | .arr xs => pyRepr (.arr xs)
  | .obj kvs => pyRepr (.obj kvs)

/-- `monitor.get(key, default)` followed by f-string interpolation: the
string default if the key is absent, otherwise `str` of the stored value
(which is `"None"` for a stored JSON `null`). -/
def defaultGet (m : List (String × Json)) (k : String) (d : String) : String :=
  match jget m k with
  | none => d
  | some v => pyStr v

/-- Result of a tool call: one text block plus the error flag
(`CallToolResult` with a single `TextContent` in the source). -/
structure CallToolResult where
  text : String
  isError : Bool
deriving DecidableEq, Repr

/-- Stubbed outcome of the awaited remote-client call
(`fetch_monitor` / `update_monitor`): a decoded response body, an
`httpx.HTTPStatusError` carrying `response.status_code` and `str(e)`, or
any other exception carrying `str(e)`. -/
inductive RemoteOutcome where
  | ok : List (String × Json) → RemoteOutcome
  | httpStatusError : Nat → String → RemoteOutcome
  | otherError : String → RemoteOutcome

/-- `"\n"`‑to‑`" "` replacement: `message_truncated.replace("\n", " ")`
(a one-character pattern, hence a character-wise map). -/
def collapseNL (s : String) : String :=
  ⟨s.data.map (fun c => if c = '\n' then ' ' else c)⟩

/-- Python string length (code points). -/
def strLen (s : String) : Nat := s.data.length

/-- Python slice `s[:n]`. -/
def strTake (s : String) (n : Nat) : String := ⟨s.data.take n⟩

/-- The rendered `Message` field of the table:
`message[:100] + "..." if len(message) > 100 else message`, then
`.replace("\n", " ")`, then `message_truncated if message_truncated else 'None'`. -/
def messageLine (msg : String) : String :=
  let t := if 100 < strLen msg then strTake msg 100 ++ "..." else msg
  let t2 := collapseNL t
  if t2 = "" then "None" else t2

/-- `tags_str` for a list of string tags:
`", ".join(tags[:5])` plus `f" (+{len(tags) - 5} more)"` when `len(tags) > 5`. -/
def tagsStrOfList (tags : List String) : String :=
  let j := pyJoin ", " (tags.take 5)
  if 5 < tags.length then j ++ " (+" ++ intStr (tags.length - 5 : Nat) ++ " more)"
  else j

/-- `monitor.get("message", "")` followed by the string operations of the
table branch.  A present non-string value makes `len(message)` /
`message[:100] + "..."` / `.replace` raise a `TypeError`, modelled as the
error channel. -/
def messageOf (m : List (String × Json)) : Except String String :=
  match jget m "message" with
  | none => .ok ""
  | some (.str s) => .ok s
  | some _ => .error "TypeError: message is not a string"

/-- The underlying strings of a JSON array all of whose items are
strings; `none` as soon as one item is not a string (the item
`", ".join` raises a `TypeError` on). -/
def strListOf : List Json → Option (List String)
  | [] => some []
  | .str s :: rest => (strListOf rest).map (fun ts => s :: ts)
  | _ :: _ => none

/-- `monitor.get("tags", [])` followed by `tags[:5]` / `", ".join(...)` /
`len(tags)`.  A string value behaves as its sequence of one-character
strings (Python slicing and join over a `str`); any other non-list value,
or a list with a non-string item, raises a `TypeError`, modelled as the
error channel. -/
def tagsStrOf (m : List (String × Json)) : Except String String :=
  match jget m "tags" with
  | none => .ok (tagsStrOfList [])
  | some (.arr xs) =>
    match strListOf xs with
    | some tags => .ok (tagsStrOfList tags)
    | none => .error "TypeError: sequence item: expected str instance"
  | some (.str s) => .ok (tagsStrOfList (s.data.map (fun c => ⟨[c]⟩)))
  | some _ => .error "TypeError: tags is not a sequence"

/-- The table-format branch of `get_monitor.handle_call` (source lines
60–84): field extraction with defaults, tag truncation, message truncation,
and the fixed-order fixed-label block.  The error channel carries the
`TypeError`s a malformed record raises, in source order (the tag
operations on lines 68–70 run before the message operations on line 72). -/
def renderTable (mid : Json) (m : List (String × Json)) : Except String String := do
  let monitorName := defaultGet m "name" "Unnamed"
  let monitorType := defaultGet m "type" "unknown"
  let overallState := defaultGet m "overall_state" "unknown"
  let priorityStr := defaultGet m "priority" "N/A"
  let queryStr := defaultGet m "query" "N/A"
  let tagsStr ← tagsStrOf m
  let msg ← messageOf m
  let msgLine := messageLine msg
  pure ("Monitor Details\n" ++ "===============" ++ "\n\n"
    ++ "ID:       " ++ pyStr mid ++ "\n"
    ++ "Name:     " ++ monitorName ++ "\n"
    ++ "Type:     " ++ monitorType ++ "\n"
    ++ "State:    " ++ overallState ++ "\n"
    ++ "Priority: " ++ priorityStr ++ "\n"
    ++ "Tags:     " ++ (if tagsStr = "" then "None" else tagsStr) ++ "\n"
    ++ "Query:    " ++ queryStr ++ "\n"
    ++ "Message:  " ++ msgLine ++ "\n")

/-- `n` space characters: the indentation prefix `json.dumps` emits at
nesting level `n` with `indent=2`. -/
def spaces (n : Nat) : List Char := List.replicate n ' '

/-- The four lowercase hex digits of `n % 0x10000`, most significant
first: the `XXXX` of a `\uXXXX` escape. -/
def hex4 (n : Nat) : List Char :=
  [Nat.digitChar (n / 4096 % 16), Nat.digitChar (n / 256 % 16),
   Nat.digitChar (n / 16 % 16), Nat.digitChar (n % 16)]

/-- `json.dumps` escaping of one character (`ensure_ascii=True`, the
default): the two-character short escapes, `\uXXXX` for other characters
outside the printable ASCII range `0x20`–`0x7e`, as a surrogate pair for
characters beyond the Basic Multilingual Plane, and verbatim otherwise. -/
def escapeChar (c : Char) : List Char :=
  if c = '"' then ['\\', '"']
  else if c = '\\' then ['\\', '\\']
  else if c = '\n' then ['\\', 'n']
  else if c = '\t' then ['\\', 't']
  else if c = '\r' then ['\\', 'r']
  else if c = '\x08' then ['\\', 'b']
  else if c = '\x0c' then ['\\', 'f']
  else if c.toNat < 0x20 ∨ 0x7e < c.toNat then
    if c.toNat < 0x10000 then '\\' :: 'u' :: hex4 c.toNat
    else
      ('\\' :: 'u' :: hex4 (0xd800 + (c.toNat - 0x10000) / 0x400))
        ++ ('\\' :: 'u' :: hex4 (0xdc00 + (c.toNat - 0x10000) % 0x400))
  else [c]

/-- A JSON string literal: quote, escaped characters, quote. -/
def quoteStr (s : String) : List Char :=
  '"' :: (s.data.map escapeChar).flatten ++ ['"']

mutual
/-- The characters `json.dumps(v, indent=2)` emits for a value at nesting
level `ind` (the level's indentation is emitted by the surrounding
container, not here).  Empty containers stay on one line; non-empty ones
put each item on its own line indented by `ind + 2`, separated by `",\n"`,
with `": "` between a key and its value. -/
def dumpsVal : Nat → Json → List Char
  | _, .null => ['n', 'u', 'l', 'l']
  | _, .bool true => ['t', 'r', 'u', 'e']
  | _, .bool false => ['f', 'a', 'l', 's', 'e']
  | _, .int n => intChars n
  | _, .str s => quoteStr s
  | _, .arr [] => ['[', ']']
  | ind, .arr (x :: xs) =>
    '[' :: '\n' :: (dumpsItems (ind + 2) x xs ++ '\n' :: (spaces ind ++ [']']))
  | _, .obj [] => ['\x7b', '\x7d']
  | ind, .obj (kv :: kvs) =>
    '\x7b' :: '\n' :: (dumpsMembers (ind + 2) kv kvs ++ '\n' :: (spaces ind ++ ['\x7d']))
termination_by _ v => sizeOf v

/-- The lines of a non-empty array body, each indented by `ind`. -/
def dumpsItems : Nat → Json → List Json → List Char
  | ind, x, [] => spaces ind ++ dumpsVal ind x
  | ind, x, y :: ys => spaces ind ++ (dumpsVal ind x ++ ',' :: '\n' :: dumpsItems ind y ys)
termination_by _ x xs => sizeOf x + sizeOf xs

/-- The lines of a non-empty object body, each indented by `ind`. -/
def dumpsMembers : Nat → (String × Json) → List (String × Json) → List Char
  | ind, (k, v), [] => spaces ind ++ (quoteStr k ++ ':' :: ' ' :: dumpsVal ind v)
  | ind, (k, v), kv :: kvs =>
    spaces ind ++ (quoteStr k ++ ':' :: ' ' :: (dumpsVal ind v ++ ',' :: '\n' :: dumpsMembers ind kv kvs))
termination_by _ kv kvs => sizeOf kv + sizeOf kvs
end

/-- `json.dumps(v, indent=2)`. -/
def dumps (v : Json) : String := ⟨dumpsVal 0 v⟩

/-- The Python comparison `format_type == "json"`: true exactly for the
string `"json"`, false for every other value of any type. -/
def isJsonFormat : Json → Bool
  | .str s => s = "json"
  | _ => false

/-- `get_monitor.handle_call` (source lines 41–112) with the awaited
`fetch_monitor` outcome as the `fetchResult` argument.  Returns the
`CallToolResult` paired with the remote call issued: `some mid` when
`fetch_monitor(monitor_id)` was invoked, `none` when validation failed
before any network access.  The function is total: the source's
`try/except` boundary means every path yields a result. -/
def getMonitorHandleCall (arguments : Option (List (String × Json)))
    (fetchResult : RemoteOutcome) : CallToolResult × Option Json :=
  let args := arguments.getD []
  let monitorId := jget args "monitor_id"
  let formatType := (jget args "format").getD (.str "table")
  match monitorId with
  | none => (⟨"Error: monitor_id is required", true⟩, none)
  | some .null => (⟨"Error: monitor_id is required", true⟩, none)
  | some mid =>
    match fetchResult with
    | .ok monitor =>
      if isJsonFormat formatType then
        (⟨dumps (.obj monitor), false⟩, some mid)
      else
        match renderTable mid monitor with
        | .ok content => (⟨content, false⟩, some mid)
        | .error e => (⟨"Error: " ++ e, true⟩, some mid)
    | .httpStatusError status e =>
      if status = 404 then (⟨"Monitor not found", true⟩, some mid)
      else if status = 403 then (⟨"Permission denied", true⟩, some mid)
      else (⟨"Error: " ++ e, true⟩, some mid)
    | .otherError e => (⟨"Error: " ++ e, true⟩, some mid)

/-- One optional patch entry: `if args.get(k) is not None: updates[k] = v`.
A present `null` equals an absent key (`dict.get` returns `None` for
both). -/
def providedField (args : List (String × Json)) (k : String) : List (String × Json) :=
  match jget args k with
  | none => []
  | some .null => []
  | some v => [(k, v)]

/-- The `updates` dict of `monitor_edit.handle_call` (source lines 77–85):
exactly the non-`None` values among `name`, `message`, `tags`, `priority`,
in that insertion order. -/
def buildUpdates (args : List (String × Json)) : List (String × Json) :=
  providedField args "name" ++ providedField args "message"
    ++ providedField args "tags" ++ providedField args "priority"

/-- Outcome of the `priority is not None and (priority < 1 or priority > 5)`
test (source line 71). -/
inductive PriorityCheck where
  | pass : PriorityCheck
  | outOfRange : PriorityCheck
  | typeError : String → PriorityCheck

/-- The numeric value Python's `<`/`>` comparisons against `int` accept:
integers themselves, and `bool` as `0`/`1` (a subclass of `int`).  Any
other operand raises a `TypeError`. -/
def asPyNumber : Json → Option Int
  | .int n => some n
  | .bool b => some (if b then 1 else 0)
  | _ => none

/-- The priority validation of `monitor_edit.handle_call`: skipped when
`priority` is absent or `None`; out-of-range when the value compares
outside `[1,5]`; a `TypeError` (caught by the generic handler) when the
value is not comparable with `int`. -/
def checkPriority (args : List (String × Json)) : PriorityCheck :=
  match jget args "priority" with
  | none => .pass
  | some .null => .pass
  | some v =>
    match asPyNumber v with
    | some p => if p < 1 ∨ 5 < p then .outOfRange else .pass
    | none => .typeError "unsupported comparison between priority and int"

/-- `monitor_edit.handle_call` (source lines 53–121) with the awaited
`update_monitor` outcome as the `updateResult` argument.  Returns the
`CallToolResult` paired with the remote call issued:
`some (mid, updates)` when `update_monitor(monitor_id, **updates)` was
invoked, `none` when validation failed before any network access. -/
def monitorEditHandleCall (arguments : Option (List (String × Json)))
    (updateResult : RemoteOutcome) :
    CallToolResult × Option (Json × List (String × Json)) :=
  let args := arguments.getD []
  match jget args "monitor_id" with
  | none => (⟨"Error: monitor_id is required", true⟩, none)
  | some .null => (⟨"Error: monitor_id is required", true⟩, none)
  | some mid =>
    match checkPriority args with
    | .outOfRange => (⟨"Invalid priority: must be 1-5", true⟩, none)
    | .typeError e => (⟨"Error: " ++ e, true⟩, none)
    | .pass =>
      let updates := buildUpdates args
      if updates.isEmpty then
        (⟨"At least one field to update is required", true⟩, none)
      else
        match updateResult with
        | .ok _ =>
          (⟨"Monitor " ++ pyStr mid ++ " updated successfully", false⟩, some (mid, updates))
        | .httpStatusError status e =>
          if status = 404 then (⟨"Monitor not found", true⟩, some (mid, updates))
          else if status = 403 then (⟨"Permission denied", true⟩, some (mid, updates))
          else (⟨"Error: " ++ e, true⟩, some (mid, updates))
        | .otherError e => (⟨"Error: " ++ e, true⟩, some (mid, updates))

/-- Whitespace skipped between JSON tokens (`json.loads` accepts space,
newline, tab and carriage return). -/
def skipWs : List Char → List Char
  | [] => []
  | c :: cs => if c = ' ' ∨ c = '\n' ∨ c = '\t' ∨ c = '\r' then skipWs cs else c :: cs

/-- Value of one hex digit, upper or lower case. -/
def hexVal : Char → Option Nat :=
  fun c =>
    if '0' ≤ c ∧ c ≤ '9' then some (c.toNat - 48)
    else if 'a' ≤ c ∧ c ≤ 'f' then some (c.toNat - 87)
    else if 'A' ≤ c ∧ c ≤ 'F' then some (c.toNat - 55)
    else none

/-- Four hex digits, as in the `XXXX` of `\uXXXX`. -/
def parseHex4 : List Char → Option (Nat × List Char)
  | c1 :: c2 :: c3 :: c4 :: rest =>
    match hexVal c1, hexVal c2, hexVal c3, hexVal c4 with
    | some d1, some d2, some d3, some d4 =>
      some (d1 * 4096 + d2 * 256 + d3 * 16 + d4, rest)
    | _, _, _, _ => none
  | _ => none

/-- The character denoted by a single-character escape `\e`. -/
def unescape1 (e : Char) : Option Char :=
  if e = '"' then some '"'
  else if e = '\\' then some '\\'
  else if e = '/' then some '/'
  else if e = 'n' then some '\n'
  else if e = 't' then some '\t'
  else if e = 'r' then some '\r'
  else if e = 'b' then some '\x08'
  else if e = 'f' then some '\x0c'
  else none

/-- The tail of an escape sequence, after the backslash: a short escape,
a `\uXXXX` escape, or a surrogate pair (a lone surrogate is rejected, as
Lean characters are Unicode scalar values).  Returns the denoted
character and the unconsumed input. -/
def parseEsc : List Char → Option (Char × List Char)
  | [] => none
  | e :: cs =>
    if e = 'u' then
      match parseHex4 cs with
      | none => none
      | some (n, r) =>
        if 0xd800 ≤ n ∧ n ≤ 0xdbff then
          match r with
          | b1 :: b2 :: r2 =>
            if b1 = '\\' ∧ b2 = 'u' then
              match parseHex4 r2 with
              | none => none
              | some (n2, r3) =>
                if 0xdc00 ≤ n2 ∧ n2 ≤ 0xdfff then
                  some (Char.ofNat (0x10000 + (n - 0xd800) * 0x400 + (n2 - 0xdc00)), r3)
                else none
            else none
          | _ => none
        else if 0xdc00 ≤ n ∧ n ≤ 0xdfff then none
        else some (Char.ofNat n, r)
    else
      match unescape1 e with
      | some c2 => some (c2, cs)
      | none => none

/-- Body of a JSON string literal, after the opening quote: literal
characters and backslash escapes, up to the closing quote.  Returns the
decoded characters and the input after the closing quote. -/
def parseStrBody : Nat → List Char → Option (List Char × List Char)
  | 0, _ => none
  | _ + 1, [] => none
  | fuel + 1, c :: cs =>
    if c = '"' then some ([], cs)
    else if c = '\\' then
      match parseEsc cs with
      | some (c2, cs2) =>
        match parseStrBody fuel cs2 with
        | some (out, r) => some (c2 :: out, r)
        | none => none
      | none => none
    else
      match parseStrBody fuel cs with
      | some (out, r) => some (c :: out, r)
      | none => none

/-- Decimal value of a digit run (most significant first). -/
def digitsToNat (ds : List Char) : Nat :=
  ds.foldl (fun a c => a * 10 + (c.toNat - 48)) 0

/-- A JSON integer literal: an optional minus sign and a nonempty digit
run.  Fractions and exponents are not modelled (the dumped monitor
payloads contain no floats). -/
def parseNumber : List Char → Option (Json × List Char)
  | [] => none
  | c :: cs =>
    if c = '-' then
      let ds := cs.takeWhile (·.isDigit)
      let rest := cs.dropWhile (·.isDigit)
      if ds.isEmpty then none else some (.int (-(digitsToNat ds : Int)), rest)
    else
      let ds := (c :: cs).takeWhile (·.isDigit)
      let rest := (c :: cs).dropWhile (·.isDigit)
      if ds.isEmpty then none else some (.int (digitsToNat ds : Int), rest)

mutual
/-- Recursive-descent JSON value parser (fueled; `jsonParse` supplies fuel
sufficient for any input).  Returns the value and the unconsumed input. -/
def parseVal : Nat → List Char → Option (Json × List Char)
  | 0, _ => none
  | fuel + 1, s =>
    match skipWs s with
    | [] => none
    | c :: rest =>
      if c = '"' then
        match parseStrBody (rest.length + 1) rest with
        | some (cs, r) => some (.str ⟨cs⟩, r)
        | none => none
      else if c = 'n' then
        match rest with
        | 'u' :: 'l' :: 'l' :: r => some (.null, r)
        | _ => none
      else if c = 't' then
        match rest with
        | 'r' :: 'u' :: 'e' :: r => some (.bool true, r)
        | _ => none
      else if c = 'f' then
        match rest with
        | 'a' :: 'l' :: 's' :: 'e' :: r => some (.bool false, r)
        | _ => none
      else if c = '[' then
        match skipWs rest with
        | [] => none
        | c2 :: r =>
          if c2 = ']' then some (.arr [], r)
          else
            match parseItems fuel rest with
            | some (xs, r2) => some (.arr xs, r2)
            | none => none
      else if c = '\x7b' then
        match skipWs rest with
        | [] => none
        | c2 :: r =>
          if c2 = '\x7d' then some (.obj [], r)
          else
            match parseMembers fuel rest with
            | some (kvs, r2) => some (.obj kvs, r2)
            | none => none
      else parseNumber (c :: rest)

/-- One-or-more comma-separated array items, up to and including the
closing bracket. -/
def parseItems : Nat → List Char → Option (List Json × List Char)
  | 0, _ => none
  | fuel + 1, s =>
    match parseVal fuel s with
    | none => none
    | some (v, r) =>
      match skipWs r with
      | [] => none
      | c :: r2 =>
        if c = ',' then
          match parseItems fuel r2 with
          | some (xs, r3) => some (v :: xs, r3)
          | none => none
        else if c = ']' then some ([v], r2)
        else none

/-- One-or-more comma-separated `"key": value` members, up to and
including the closing brace. -/
def parseMembers : Nat → List Char → Option (List (String × Json) × List Char)
  | 0, _ => none
  | fuel + 1, s =>
    match skipWs s with
    | [] => none
    | c :: rest =>
      if c = '"' then
        match parseStrBody (rest.length + 1) rest with
        | none => none
        | some (kcs, r) =>
          match skipWs r with
          | [] => none
          | c2 :: r2 =>
            if c2 = ':' then
              match parseVal fuel r2 with
              | none => none
              | some (v, r3) =>
                match skipWs r3 with
                | [] => none
                | c3 :: r4 =>
                  if c3 = ',' then
                    match parseMembers fuel r4 with
                    | some (kvs, r5) => some ((⟨kcs⟩, v) :: kvs, r5)
                    | none => none
                  else if c3 = '\x7d' then some ([(⟨kcs⟩, v)], r4)
                  else none
            else none
      else none
end

/-- `json.loads` on the modelled fragment: parse one value and require
only trailing whitespace after it. -/
def jsonParse (s : String) : Option Json :=
  match parseVal (s.data.length + 1) s.data with
  | some (v, rest) => if (skipWs rest).isEmpty then some v else none
  | none => none

/-- The first character of the unconsumed input is not a decimal digit
(so a digit run just before it is maximal). -/
def noDigitHead : List Char → Prop
  | [] => True
  | c :: _ => ¬ c.isDigit

mutual
/-- Parser-fuel measure of a value: one unit per `parseVal` /
`parseItems` / `parseMembers` activation needed to parse its
serialisation. -/
def jsonNodes : Json → Nat
  | .null => 1
  | .bool _ => 1
  | .int _ => 1
  | .str _ => 1
  | .arr xs => 2 + nodesList xs
  | .obj kvs => 2 + nodesMembers kvs
termination_by v => sizeOf v

/-- Fuel measure of array items. -/
def nodesList : List Json → Nat
  | [] => 0
  | x :: xs => jsonNodes x + nodesList xs
termination_by xs => sizeOf xs

/-- Fuel measure of object members. -/
def nodesMembers : List (String × Json) → Nat
  | [] => 0
  | (_, v) :: kvs => jsonNodes v + nodesMembers kvs
termination_by kvs => sizeOf kvs
end

/-- Modelled from the spec: the Tags cell, `first 5 tags joined by ", "`,
with `" (+<count-5> more)"` appended when there are more than 5 tags —
amended so that an empty joined string falls back to `"None"` (the code's
falsy check), which also yields the spec's `"None"` default for absent
tags. -/
def specTagsCell (tags : List String) : String :=
  let j := pyJoin ", " (tags.take 5)
  let j2 :=
    if 5 < tags.length then j ++ " (+" ++ intStr (tags.length - 5 : Nat) ++ " more)"
    else j
  if j2 = "" then "None" else j2

/-- Modelled from the spec: the Message cell, newlines collapsed to single
spaces, truncated to the first 100 characters with `"..."` appended when
longer than 100, default `"None"` (for the absent/empty message). -/
def specMessageCell (msg : String) : String :=
  if msg = "" then "None"
  else if 100 < strLen msg then strTake (collapseNL msg) 100 ++ "..."
  else collapseNL msg

/-- Modelled from the spec: the fixed-order, fixed-label lines of the
`Monitor Details` table block (§4.2 of the spec), parameterised by the
record's tag list and message string. -/
def specTableLines (mid : Json) (m : List (String × Json)) (tags : List String)
    (msg : String) : List String :=
  ["Monitor Details",
   "===============",
   "",
   "ID:       " ++ pyStr mid,
   "Name:     " ++ (match jget m "name" with | none => "Unnamed" | some v => pyStr v),
   "Type:     " ++ (match jget m "type" with | none => "unknown" | some v => pyStr v),
   "State:    " ++ (match jget m "overall_state" with | none => "unknown" | some v => pyStr v),
   "Priority: " ++ (match jget m "priority" with | none => "N/A" | some v => pyStr v),
   "Tags:     " ++ specTagsCell tags,
   "Query:    " ++ (match jget m "query" with | none => "N/A" | some v => pyStr v),
   "Message:  " ++ specMessageCell msg]

/-! ## Handler reduction lemmas -/

theorem getMonitor_missing (a : List (String × Json)) (u : RemoteOutcome)
    (h : jget a "monitor_id" = none ∨ jget a "monitor_id" = some Json.null) :
    getMonitorHandleCall (some a) u = (⟨"Error: monitor_id is required", true⟩, none) := by
  rcases h with h | h <;> simp [getMonitorHandleCall, h]

theorem monitorEdit_missing (a : List (String × Json)) (u : RemoteOutcome)
    (h : jget a "monitor_id" = none ∨ jget a "monitor_id" = some Json.null) :
    monitorEditHandleCall (some a) u = (⟨"Error: monitor_id is required", true⟩, none) := by
  rcases h with h | h <;> simp [monitorEditHandleCall, h]

theorem getMonitor_valid (a : List (String × Json)) (mid : Json) (u : RemoteOutcome)
    (hmid : jget a "monitor_id" = some mid) (hnn : mid ≠ Json.null) :
    getMonitorHandleCall (some a) u =
      match u with
      | .ok monitor =>
        if isJsonFormat ((jget a "format").getD (.str "table")) then
          (⟨dumps (.obj monitor), false⟩, some mid)
        else
          match renderTable mid monitor with
          | .ok content => (⟨content, false⟩, some mid)
          | .error e => (⟨"Error: " ++ e, true⟩, some mid)
      | .httpStatusError status e =>
        if status = 404 then (⟨"Monitor not found", true⟩, some mid)
        else if status = 403 then (⟨"Permission denied", true⟩, some mid)
        else (⟨"Error: " ++ e, true⟩, some mid)
      | .otherError e => (⟨"Error: " ++ e, true⟩, some mid) := by
  cases mid with
  | null => exact absurd rfl hnn
  | bool b => simp [getMonitorHandleCall, hmid]
  | int n => simp [getMonitorHandleCall, hmid]
  | str s => simp [getMonitorHandleCall, hmid]
  | arr xs => simp [getMonitorHandleCall, hmid]
  | obj kvs => simp [getMonitorHandleCall, hmid]

theorem monitorEdit_valid (a : List (String × Json)) (mid : Json) (u : RemoteOutcome)
    (hmid : jget a "monitor_id" = some mid) (hnn : mid ≠ Json.null)
    (hprio : checkPriority a = PriorityCheck.pass) :
    monitorEditHandleCall (some a) u =
      if (buildUpdates a).isEmpty then
        (⟨"At least one field to update is required", true⟩, none)
      else
        match u with
        | .ok _ =>
          (⟨"Monitor " ++ pyStr mid ++ " updated successfully", false⟩, some (mid, buildUpdates a))
        | .httpStatusError status e =>
          if status = 404 then (⟨"Monitor not found", true⟩, some (mid, buildUpdates a))
          else if status = 403 then (⟨"Permission denied", true⟩, some (mid, buildUpdates a))
          else (⟨"Error: " ++ e, true⟩, some (mid, buildUpdates a))
        | .otherError e => (⟨"Error: " ++ e, true⟩, some (mid, buildUpdates a)) := by
  cases mid with
  | null => exact absurd rfl hnn
  | bool b => simp [monitorEditHandleCall, hmid, hprio]
  | int n => simp [monitorEditHandleCall, hmid, hprio]
  | str s => simp [monitorEditHandleCall, hmid, hprio]
  | arr xs => simp [monitorEditHandleCall, hmid, hprio]
  | obj kvs => simp [monitorEditHandleCall, hmid, hprio]

theorem mem_providedField (a : List (String × Json)) (k0 k : String) (v : Json) :
    (k, v) ∈ providedField a k0 ↔ (k = k0 ∧ jget a k0 = some v ∧ v ≠ Json.null) := by
  unfold providedField
  cases h : jget a k0 with
  | none => simp
  | some w =>
    cases w <;> simp [Prod.ext_iff, eq_comm, and_assoc] <;>
      (rintro _ rfl h; exact Json.noConfusion h)

/-! ## Claim theorems -/

/-- C1: for every call to either handler in which the remote operation
fails, HTTP status 404 yields the failure result "Monitor not found",
403 yields "Permission denied", and any other status or any unclassified
failure yields "Error: <underlying message>"; every such outcome sets the
error flag.  (That no exception escapes the handler boundary is intrinsic
to the embedding: both handlers are total functions into
`CallToolResult × _`, mirroring the source's outermost `try/except`.)
The hypotheses `hmid`/`hnn` state that `monitor_id` validation passes,
which for `get_monitor` is all it takes for the remote operation to be
invoked; `monitor_edit` additionally reaches its remote call only past
the priority and non-empty-patch checks, so those conditions are
antecedents of its conjuncts alone. -/
theorem claim_C1_http_error_mapping
    (a : List (String × Json)) (mid : Json) (status : Nat) (msg : String)
    (hmid : jget a "monitor_id" = some mid) (hnn : mid ≠ Json.null) :
    ((getMonitorHandleCall (some a) (.httpStatusError 404 msg)).1 = ⟨"Monitor not found", true⟩)
    ∧ ((getMonitorHandleCall (some a) (.httpStatusError 403 msg)).1 = ⟨"Permission denied", true⟩)
    ∧ (status ≠ 404 → status ≠ 403 →
        (getMonitorHandleCall (some a) (.httpStatusError status msg)).1 = ⟨"Error: " ++ msg, true⟩)
    ∧ ((getMonitorHandleCall (some a) (.otherError msg)).1 = ⟨"Error: " ++ msg, true⟩)
    ∧ (checkPriority a = PriorityCheck.pass → buildUpdates a ≠ [] →
        ((monitorEditHandleCall (some a) (.httpStatusError 404 msg)).1
            = ⟨"Monitor not found", true⟩)
        ∧ ((monitorEditHandleCall (some a) (.httpStatusError 403 msg)).1
            = ⟨"Permission denied", true⟩)
        ∧ (status ≠ 404 → status ≠ 403 →
            (monitorEditHandleCall (some a) (.httpStatusError status msg)).1
              = ⟨"Error: " ++ msg, true⟩)
        ∧ ((monitorEditHandleCall (some a) (.otherError msg)).1
            = ⟨"Error: " ++ msg, true⟩)) := by
  refine ⟨?_, ?_, ?_, ?_, fun hprio hupd => ?_⟩
  · rw [getMonitor_valid a mid _ hmid hnn]
    simp
  · rw [getMonitor_valid a mid _ hmid hnn]
    simp
  · intro h4 h3
    rw [getMonitor_valid a mid _ hmid hnn]
    simp [h4, h3]
  · rw [getMonitor_valid a mid _ hmid hnn]
  · have hue : (buildUpdates a).isEmpty = false := by
      cases h : buildUpdates a with
      | nil => exact absurd h hupd
      | cons x xs => rfl
    refine ⟨?_, ?_, ?_, ?_⟩
    · rw [monitorEdit_valid a mid _ hmid hnn hprio]
      simp [hue]
    · rw [monitorEdit_valid a mid _ hmid hnn hprio]
      simp [hue]
    · intro h4 h3
      rw [monitorEdit_valid a mid _ hmid hnn hprio]
      simp [hue, h4, h3]
    · rw [monitorEdit_valid a mid _ hmid hnn hprio]
      simp [hue]

/-- Witness for C1: a plain `get_monitor` request (`monitor_id` only, no
edit fields) and an edit request, each at concrete failures. -/
theorem claim_C1_http_error_mapping_witness :
    (getMonitorHandleCall (some [("monitor_id", Json.int 7)])
        (.httpStatusError 404 "boom")).1 = ⟨"Monitor not found", true⟩
    ∧ (getMonitorHandleCall (some [("monitor_id", Json.int 7)])
        (.httpStatusError 500 "boom")).1 = ⟨"Error: boom", true⟩
    ∧ (getMonitorHandleCall (some [("monitor_id", Json.int 7)])
        (.otherError "boom")).1 = ⟨"Error: boom", true⟩
    ∧ (monitorEditHandleCall (some [("monitor_id", Json.int 7), ("name", Json.str "x")])
        (.httpStatusError 403 "boom")).1 = ⟨"Permission denied", true⟩
    ∧ (monitorEditHandleCall (some [("monitor_id", Json.int 7), ("name", Json.str "x")])
        (.otherError "kaput")).1 = ⟨"Error: kaput", true⟩ := by
  have h1 := claim_C1_http_error_mapping [("monitor_id", Json.int 7)]
    (Json.int 7) 500 "boom" rfl (fun hh => Json.noConfusion hh)
  have h2 := claim_C1_http_error_mapping [("monitor_id", Json.int 7), ("name", Json.str "x")]
    (Json.int 7) 500 "kaput" rfl (fun hh => Json.noConfusion hh)
  have h2e := h2.2.2.2.2 rfl (fun hh => List.noConfusion hh)
  have h2b := claim_C1_http_error_mapping [("monitor_id", Json.int 7), ("name", Json.str "x")]
    (Json.int 7) 500 "boom" rfl (fun hh => Json.noConfusion hh)
  have h2be := h2b.2.2.2.2 rfl (fun hh => List.noConfusion hh)
  exact ⟨h1.1, h1.2.2.1 (by decide) (by decide), h1.2.2.2.1, h2be.2.1, h2e.2.2.2⟩

/-- C2 as written is false: the failure text is
`"Error: monitor_id is required"`, not `"monitor_id is required"`.
At the concrete input `arguments = some []` (no `monitor_id`), both
handlers return the prefixed message. -/
theorem claim_C2_counterexample :
    (monitorEditHandleCall (some []) (RemoteOutcome.ok [])).1.text
        = "Error: monitor_id is required"
    ∧ (getMonitorHandleCall (some []) (RemoteOutcome.ok [])).1.text
        = "Error: monitor_id is required"
    ∧ "Error: monitor_id is required" ≠ "monitor_id is required" := by
  refine ⟨rfl, rfl, by decide⟩

/-- C2 (amended): for every request to either tool whose arguments omit
`monitor_id` or bind it to `null` (including a wholly absent arguments
map) and regardless of the other fields, the handler returns the failure
result `"Error: monitor_id is required"` (which contains the substring
`"monitor_id is required"`) and performs zero network calls. -/
theorem claim_C2_missing_monitor_id
    (a : List (String × Json)) (u u2 : RemoteOutcome)
    (h : jget a "monitor_id" = none ∨ jget a "monitor_id" = some Json.null) :
    getMonitorHandleCall (some a) u = (⟨"Error: monitor_id is required", true⟩, none)
    ∧ monitorEditHandleCall (some a) u = (⟨"Error: monitor_id is required", true⟩, none)
    ∧ getMonitorHandleCall none u2 = (⟨"Error: monitor_id is required", true⟩, none)
    ∧ monitorEditHandleCall none u2 = (⟨"Error: monitor_id is required", true⟩, none) := by
  exact ⟨getMonitor_missing a u h, monitorEdit_missing a u h, rfl, rfl⟩

/-- Witness for C2 (amended): `monitor_id` explicitly `null` among other
supplied fields, and a wholly absent arguments map. -/
theorem claim_C2_missing_monitor_id_witness :
    getMonitorHandleCall (some [("monitor_id", Json.null), ("format", Json.str "json")])
        (RemoteOutcome.ok [])
      = (⟨"Error: monitor_id is required", true⟩, none)
    ∧ monitorEditHandleCall (some [("monitor_id", Json.null), ("name", Json.str "N")])
        (RemoteOutcome.ok [])
      = (⟨"Error: monitor_id is required", true⟩, none)
    ∧ monitorEditHandleCall none (RemoteOutcome.ok [])
      = (⟨"Error: monitor_id is required", true⟩, none) := by
  have h1 := claim_C2_missing_monitor_id [("monitor_id", Json.null), ("format", Json.str "json")]
    (RemoteOutcome.ok []) (RemoteOutcome.ok []) (Or.inr rfl)
  have h2 := claim_C2_missing_monitor_id [("monitor_id", Json.null), ("name", Json.str "N")]
    (RemoteOutcome.ok []) (RemoteOutcome.ok []) (Or.inr rfl)
  exact ⟨h1.1, h2.2.1, h2.2.2.2⟩

/-- C3: for a `monitor_edit` request with a non-null `monitor_id`
(passing the priority check), the update patch contains exactly the
non-null supplied fields among `name`, `message`, `tags`, `priority`; an
empty patch fails with "At least one field to update is required" and no
network call; a non-empty patch (as arises from an explicitly empty string
or empty sequence, which are non-null and hence provided) proceeds to the
`update_monitor` call carrying the patch. -/
theorem claim_C3_patch_building
    (a : List (String × Json)) (mid : Json) (u : RemoteOutcome)
    (hmid : jget a "monitor_id" = some mid) (hnn : mid ≠ Json.null)
    (hprio : checkPriority a = PriorityCheck.pass) :
    (∀ k v, (k, v) ∈ buildUpdates a ↔
      ((k = "name" ∨ k = "message" ∨ k = "tags" ∨ k = "priority")
        ∧ jget a k = some v ∧ v ≠ Json.null))
    ∧ (buildUpdates a = [] →
        monitorEditHandleCall (some a) u
          = (⟨"At least one field to update is required", true⟩, none))
    ∧ (buildUpdates a ≠ [] →
        (monitorEditHandleCall (some a) u).2 = some (mid, buildUpdates a)) := by
  refine ⟨?_, ?_, ?_⟩
  · intro k v
    simp only [buildUpdates, List.mem_append, mem_providedField]
    constructor
    · rintro (((⟨rfl, h1, h2⟩ | ⟨rfl, h1, h2⟩) | ⟨rfl, h1, h2⟩) | ⟨rfl, h1, h2⟩)
      · exact ⟨Or.inl rfl, h1, h2⟩
      · exact ⟨Or.inr (Or.inl rfl), h1, h2⟩
      · exact ⟨Or.inr (Or.inr (Or.inl rfl)), h1, h2⟩
      · exact ⟨Or.inr (Or.inr (Or.inr rfl)), h1, h2⟩
    · rintro ⟨(rfl | rfl | rfl | rfl), h1, h2⟩
      · exact Or.inl (Or.inl (Or.inl ⟨rfl, h1, h2⟩))
      · exact Or.inl (Or.inl (Or.inr ⟨rfl, h1, h2⟩))
      · exact Or.inl (Or.inr ⟨rfl, h1, h2⟩)
      · exact Or.inr ⟨rfl, h1, h2⟩
  · intro h0
    rw [monitorEdit_valid a mid _ hmid hnn hprio]
    simp [h0]
  · intro hne
    have hue : (buildUpdates a).isEmpty = false := by
      cases h : buildUpdates a with
      | nil => exact absurd h hne
      | cons x xs => rfl
    rw [monitorEdit_valid a mid _ hmid hnn hprio]
    cases u <;> simp [hue] <;> split_ifs <;> rfl

/-- Witness for C3: an explicitly empty string for `name` counts as
provided, lands in the patch, and the request reaches the network call
carrying it. -/
theorem claim_C3_patch_building_witness :
    ("name", Json.str "") ∈ buildUpdates [("monitor_id", Json.int 1), ("name", Json.str "")]
    ∧ (monitorEditHandleCall (some [("monitor_id", Json.int 1), ("name", Json.str "")])
          (RemoteOutcome.ok [])).2
        = some (Json.int 1, buildUpdates [("monitor_id", Json.int 1), ("name", Json.str "")]) := by
  have h := claim_C3_patch_building [("monitor_id", Json.int 1), ("name", Json.str "")]
    (Json.int 1) (RemoteOutcome.ok []) rfl (fun hh => Json.noConfusion hh) rfl
  exact ⟨(h.1 "name" (Json.str "")).mpr ⟨Or.inl rfl, rfl, fun hh => Json.noConfusion hh⟩,
    h.2.2 (fun hh => List.noConfusion hh)⟩

/-- C4: an out-of-range `priority` (outside the closed interval `[1,5]`)
on a request with a non-null `monitor_id` fails with
"Invalid priority: must be 1-5" and no network call, regardless of which
other fields are supplied (so this check precedes the empty-patch check);
an in-range priority passes validation, and — being itself a provided
field — the request goes on to the network call. -/
theorem claim_C4_priority_range
    (a : List (String × Json)) (mid : Json) (p : Int) (u : RemoteOutcome)
    (hmid : jget a "monitor_id" = some mid) (hnn : mid ≠ Json.null)
    (hp : jget a "priority" = some (Json.int p)) :
    ((p < 1 ∨ 5 < p) →
      monitorEditHandleCall (some a) u = (⟨"Invalid priority: must be 1-5", true⟩, none))
    ∧ (1 ≤ p → p ≤ 5 → (monitorEditHandleCall (some a) u).2.isSome) := by
  constructor
  · intro hout
    have hpc : checkPriority a = PriorityCheck.outOfRange := by
      unfold checkPriority
      rw [hp]
      simp [asPyNumber, hout]
    cases mid with
    | null => exact absurd rfl hnn
    | bool b => simp [monitorEditHandleCall, hmid, hpc]
    | int n => simp [monitorEditHandleCall, hmid, hpc]
    | str s => simp [monitorEditHandleCall, hmid, hpc]
    | arr xs => simp [monitorEditHandleCall, hmid, hpc]
    | obj kvs => simp [monitorEditHandleCall, hmid, hpc]
  · intro h1 h5
    have hpc : checkPriority a = PriorityCheck.pass := by
      unfold checkPriority
      rw [hp]
      simp [asPyNumber]
      omega
    have hne : buildUpdates a ≠ [] := by
      have hpf : providedField a "priority" = [("priority", Json.int p)] := by
        simp [providedField, hp]
      simp [buildUpdates, hpf]
    have hue : (buildUpdates a).isEmpty = false := by
      cases h : buildUpdates a with
      | nil => exact absurd h hne
      | cons x xs => rfl
    rw [monitorEdit_valid a mid u hmid hnn hpc]
    cases u <;> simp [hue] <;> split_ifs <;> rfl

/-- Witness for C4: priority `0` is rejected with the priority message
and no call; priority `6` likewise; priorities `1` and `5` pass and reach
the network. -/
theorem claim_C4_priority_range_witness :
    monitorEditHandleCall (some [("monitor_id", Json.int 9), ("priority", Json.int 0)])
        (RemoteOutcome.ok []) = (⟨"Invalid priority: must be 1-5", true⟩, none)
    ∧ monitorEditHandleCall (some [("monitor_id", Json.int 9), ("priority", Json.int 6)])
        (RemoteOutcome.ok []) = (⟨"Invalid priority: must be 1-5", true⟩, none)
    ∧ (monitorEditHandleCall (some [("monitor_id", Json.int 9), ("priority", Json.int 1)])
        (RemoteOutcome.ok [])).2.isSome
    ∧ (monitorEditHandleCall (some [("monitor_id", Json.int 9), ("priority", Json.int 5)])
        (RemoteOutcome.ok [])).2.isSome := by
  refine ⟨?_, ?_, ?_, ?_⟩
  · exact (claim_C4_priority_range [("monitor_id", Json.int 9), ("priority", Json.int 0)]
      (Json.int 9) 0 (RemoteOutcome.ok []) rfl (fun hh => Json.noConfusion hh)
      rfl).1 (by decide)
  · exact (claim_C4_priority_range [("monitor_id", Json.int 9), ("priority", Json.int 6)]
      (Json.int 9) 6 (RemoteOutcome.ok []) rfl (fun hh => Json.noConfusion hh)
      rfl).1 (by decide)
  · exact (claim_C4_priority_range [("monitor_id", Json.int 9), ("priority", Json.int 1)]
      (Json.int 9) 1 (RemoteOutcome.ok []) rfl (fun hh => Json.noConfusion hh)
      rfl).2 (by decide) (by decide)
  · exact (claim_C4_priority_range [("monitor_id", Json.int 9), ("priority", Json.int 5)]
      (Json.int 9) 5 (RemoteOutcome.ok []) rfl (fun hh => Json.noConfusion hh)
      rfl).2 (by decide) (by decide)

/-- C7: a `monitor_edit` request that passes validation and whose
`update_monitor` call succeeds yields exactly
`"Monitor <monitor_id> updated successfully"` (the request's
`monitor_id` interpolated by `str`) with the failure flag false. -/
theorem claim_C7_update_success
    (a : List (String × Json)) (mid : Json) (body : List (String × Json))
    (hmid : jget a "monitor_id" = some mid) (hnn : mid ≠ Json.null)
    (hprio : checkPriority a = PriorityCheck.pass)
    (hupd : buildUpdates a ≠ []) :
    (monitorEditHandleCall (some a) (.ok body)).1
      = ⟨"Monitor " ++ pyStr mid ++ " updated successfully", false⟩ := by
  have hue : (buildUpdates a).isEmpty = false := by
    cases h : buildUpdates a with
    | nil => exact absurd h hupd
    | cons x xs => rfl
  rw [monitorEdit_valid a mid _ hmid hnn hprio]
  simp [hue]

/-- Witness for C7: the spec's scenario
`monitor_edit({monitor_id: 12345, priority: 1})` with a stubbed
successful update. -/
theorem claim_C7_update_success_witness :
    (monitorEditHandleCall (some [("monitor_id", Json.int 12345), ("priority", Json.int 1)])
        (RemoteOutcome.ok [("id", Json.int 12345)])).1
      = ⟨"Monitor 12345 updated successfully", false⟩ := by
  have h := claim_C7_update_success [("monitor_id", Json.int 12345), ("priority", Json.int 1)]
    (Json.int 12345) [("id", Json.int 12345)] rfl (fun hh => Json.noConfusion hh) rfl
    (fun hh => List.noConfusion hh)
  rw [h]
  rfl

theorem strAppend_assoc (a b c : String) : a ++ b ++ c = a ++ (b ++ c) := by
  rw [String.ext_iff]
  simp [String.data_append]

theorem renderTable_reduce (m : List (String × Json)) (ts msg : String) (mid : Json)
    (hts : tagsStrOf m = .ok ts) (hmsg : messageOf m = .ok msg) :
    renderTable mid m = .ok ("Monitor Details\n" ++ "===============" ++ "\n\n"
      ++ "ID:       " ++ pyStr mid ++ "\n"
      ++ "Name:     " ++ defaultGet m "name" "Unnamed" ++ "\n"
      ++ "Type:     " ++ defaultGet m "type" "unknown" ++ "\n"
      ++ "State:    " ++ defaultGet m "overall_state" "unknown" ++ "\n"
      ++ "Priority: " ++ defaultGet m "priority" "N/A" ++ "\n"
      ++ "Tags:     " ++ (if ts = "" then "None" else ts) ++ "\n"
      ++ "Query:    " ++ defaultGet m "query" "N/A" ++ "\n"
      ++ "Message:  " ++ messageLine msg ++ "\n") := by
  unfold renderTable
  rw [hts, hmsg]
  rfl

theorem collapseNL_append (a b : String) :
    collapseNL (a ++ b) = collapseNL a ++ collapseNL b := by
  rw [String.ext_iff]
  simp [collapseNL, String.data_append]

theorem collapseNL_take (s : String) (n : Nat) :
    collapseNL (strTake s n) = strTake (collapseNL s) n := by
  rw [String.ext_iff]
  simp [collapseNL, strTake, List.map_take]

theorem collapseNL_empty_iff (s : String) : collapseNL s = "" ↔ s = "" := by
  rw [String.ext_iff, String.ext_iff]
  simp [collapseNL]

theorem messageLine_long (msg : String) (h : 100 < strLen msg) :
    messageLine msg = strTake (collapseNL msg) 100 ++ "..." := by
  have he : collapseNL (strTake msg 100 ++ "...") = strTake (collapseNL msg) 100 ++ "..." := by
    rw [collapseNL_append, collapseNL_take]
    rfl
  have hne : strTake (collapseNL msg) 100 ++ "..." ≠ "" := by
    intro hx
    have := congrArg String.data hx
    simp [String.data_append] at this
  simp only [messageLine, h, if_true]
  rw [he, if_neg hne]

theorem messageLine_spec (msg : String) : messageLine msg = specMessageCell msg := by
  by_cases h : 100 < strLen msg
  · have hne : msg ≠ "" := by
      intro hx
      rw [hx] at h
      simp [strLen] at h
    rw [messageLine_long msg h]
    simp [specMessageCell, hne, h]
  · simp only [messageLine, h, if_false]
    simp [specMessageCell, h, collapseNL_empty_iff]

/-- C6: in table format, a string message longer than 100 characters
renders as its first 100 characters (newlines collapsed to single spaces)
followed by `"..."`, and the rendered Message cell never contains a
newline character, whatever the message. -/
theorem claim_C6_message_truncation :
    (∀ msg : String, 100 < strLen msg →
      messageLine msg = strTake (collapseNL msg) 100 ++ "...")
    ∧ (∀ msg : String, ∀ c ∈ (messageLine msg).data, c ≠ '\n') := by
  constructor
  · exact messageLine_long
  · intro msg c hc
    simp only [messageLine] at hc
    by_cases hemp :
        collapseNL (if 100 < strLen msg then strTake msg 100 ++ "..." else msg) = ""
    · rw [if_pos hemp] at hc
      have hN : ("None" : String).data = ['N', 'o', 'n', 'e'] := rfl
      rw [hN] at hc
      simp at hc
      rcases hc with rfl | rfl | rfl | rfl <;> decide
    · rw [if_neg hemp] at hc
      simp only [collapseNL] at hc
      simp only [List.mem_map] at hc
      obtain ⟨x, _, rfl⟩ := hc
      by_cases hx : x = '\n' <;> simp [hx]

/-- Witness for C6: a 200-character message, and a message with embedded
newlines. -/
theorem claim_C6_message_truncation_witness :
    messageLine ⟨List.replicate 200 'A'⟩
      = strTake (collapseNL ⟨List.replicate 200 'A'⟩) 100 ++ "..."
    ∧ (∀ c ∈ (messageLine "line one\nline two\n\nline three").data, c ≠ '\n') := by
  exact ⟨claim_C6_message_truncation.1 ⟨List.replicate 200 'A'⟩ (by simp [strLen]),
    claim_C6_message_truncation.2 "line one\nline two\n\nline three"⟩

/-- C9 (implicit): with a valid `monitor_id` and a successful fetch, any
`format` value other than the exact string `"json"` — including values
outside the declared enum, of any JSON type — renders the same table
output as the absent/default format, and the handler never fails because
of the format value (its result is non-error whenever the table renders,
and the `"json"` branch is always non-error). -/
theorem claim_C9_format_fallback
    (a : List (String × Json)) (mid : Json) (m : List (String × Json)) (fmt : Json)
    (hmid : jget a "monitor_id" = some mid) (hnn : mid ≠ Json.null) :
    (jget a "format" = some fmt → fmt ≠ Json.str "json" →
      getMonitorHandleCall (some a) (.ok m)
        = (match renderTable mid m with
           | .ok content => (⟨content, false⟩, some mid)
           | .error e => (⟨"Error: " ++ e, true⟩, some mid)))
    ∧ (jget a "format" = none →
      getMonitorHandleCall (some a) (.ok m)
        = (match renderTable mid m with
           | .ok content => (⟨content, false⟩, some mid)
           | .error e => (⟨"Error: " ++ e, true⟩, some mid)))
    ∧ (∀ c, renderTable mid m = .ok c →
        (getMonitorHandleCall (some a) (.ok m)).1.isError = false) := by
  refine ⟨?_, ?_, ?_⟩
  · intro hf hne
    rw [getMonitor_valid a mid _ hmid hnn]
    have hj : isJsonFormat ((jget a "format").getD (.str "table")) = false := by
      rw [hf]
      cases fmt with
      | str s =>
        simp only [Option.getD_some, isJsonFormat, decide_eq_false_iff_not]
        exact fun h => hne (by rw [h])
      | null => rfl
      | bool b => rfl
      | int n => rfl
      | arr xs => rfl
      | obj kvs => rfl
    simp [hj]
  · intro hf
    rw [getMonitor_valid a mid _ hmid hnn]
    have hj : isJsonFormat ((jget a "format").getD (.str "table")) = false := by
      rw [hf]
      rfl
    simp [hj]
  · intro c hc
    rw [getMonitor_valid a mid _ hmid hnn]
    by_cases hj : isJsonFormat ((jget a "format").getD (.str "table"))
    · simp [hj]
    · simp [hj, hc]

/-- Witness for C9: `format = "yaml"` (outside the enum) renders exactly
what the absent-format default renders. -/
theorem claim_C9_format_fallback_witness :
    getMonitorHandleCall (some [("monitor_id", Json.int 1), ("format", Json.str "yaml")])
        (.ok [("name", Json.str "M")])
      = getMonitorHandleCall (some [("monitor_id", Json.int 1)]) (.ok [("name", Json.str "M")]) := by
  have h1 := (claim_C9_format_fallback [("monitor_id", Json.int 1), ("format", Json.str "yaml")]
    (Json.int 1) [("name", Json.str "M")] (Json.str "yaml") rfl
    (fun hh => Json.noConfusion hh)).1 rfl
    (by intro h; injection h with hs; exact absurd hs (by decide))
  have h2 := (claim_C9_format_fallback [("monitor_id", Json.int 1)]
    (Json.int 1) [("name", Json.str "M")] (Json.str "yaml") rfl
    (fun hh => Json.noConfusion hh)).2.1 rfl
  rw [h1, h2]

/-- C10 (implicit): the `"N/A"` default for Priority applies only to an
absent `"priority"` key; a present `null` value renders as the stringified
`None`, so the table contains the line `"Priority: None"`. -/
theorem claim_C10_priority_null
    (mid : Json) (m : List (String × Json)) (ts msg : String)
    (hp : jget m "priority" = some Json.null)
    (hts : tagsStrOf m = .ok ts) (hmsg : messageOf m = .ok msg) :
    (∃ pre post, renderTable mid m = .ok (pre ++ ("Priority: None\n" ++ post)))
    ∧ (∀ m' : List (String × Json), jget m' "priority" = none →
        defaultGet m' "priority" "N/A" = "N/A") := by
  constructor
  · refine ⟨"Monitor Details\n" ++ "===============" ++ "\n\n"
      ++ "ID:       " ++ pyStr mid ++ "\n"
      ++ "Name:     " ++ defaultGet m "name" "Unnamed" ++ "\n"
      ++ "Type:     " ++ defaultGet m "type" "unknown" ++ "\n"
      ++ "State:    " ++ defaultGet m "overall_state" "unknown" ++ "\n",
      "Tags:     " ++ (if ts = "" then "None" else ts) ++ "\n"
      ++ "Query:    " ++ defaultGet m "query" "N/A" ++ "\n"
      ++ "Message:  " ++ messageLine msg ++ "\n", ?_⟩
    rw [renderTable_reduce m ts msg mid hts hmsg]
    have hpn : defaultGet m "priority" "N/A" = "None" := by
      simp [defaultGet, hp, pyStr]
    rw [hpn]
    have hmerge : ("Priority: " ++ ("None" ++ "\n") : String) = "Priority: None\n" := rfl
    rw [← hmerge]
    refine congrArg Except.ok ?_
    rw [String.ext_iff]
    simp [String.data_append, List.append_assoc]
  · intro m' h
    simp [defaultGet, h]

/-- Witness for C10: a record with `"priority": null` renders the
`Priority: None` line; a record without the key gets the `N/A` default. -/
theorem claim_C10_priority_null_witness :
    (∃ pre post, renderTable (Json.int 3) [("priority", Json.null)]
       = .ok (pre ++ ("Priority: None\n" ++ post)))
    ∧ defaultGet [("name", Json.str "M")] "priority" "N/A" = "N/A" := by
  have h := claim_C10_priority_null (Json.int 3) [("priority", Json.null)] "" "" rfl rfl rfl
  exact ⟨h.1, h.2 [("name", Json.str "M")] rfl⟩

/-- C5 as written is false on one point: the Tags line does not always
show the joined first-five string — when that joined string is empty yet
tags are present (e.g. a single empty-string tag), the code's falsy check
renders `"None"` instead.  Concretely, for the record
`{"tags": [""]}` the join of the first 5 tags is `""` but the rendered
line is `Tags:     None`. -/
theorem claim_C5_counterexample :
    renderTable (Json.int 1) [("tags", Json.arr [Json.str ""])]
      = .ok ("Monitor Details\n===============\n\nID:       1\nName:     Unnamed\nType:     unknown\nState:    unknown\nPriority: N/A\nTags:     None\nQuery:    N/A\nMessage:  None\n")
    ∧ pyJoin ", " (List.take 5 [""]) = ""
    ∧ ("None" : String) ≠ "" := ⟨rfl, rfl, by decide⟩

theorem strListOf_map_str (ts : List String) :
    strListOf (ts.map Json.str) = some ts := by
  induction ts with
  | nil => rfl
  | cons t ts ih => simp [strListOf, ih]

/-- C5 (amended): for every `get_monitor` table rendering of a record
whose `tags` are a list of strings (or absent) and whose `message` is a
string (or absent) — the shapes for which the render succeeds and the
claim speaks — the output is exactly the fixed-order, fixed-label
`Monitor Details` block of `specTableLines`, with defaults `"Unnamed"` /
`"unknown"` / `"unknown"` / `"N/A"` / `"None"` / `"N/A"` / `"None"`, the
Tags cell showing the first 5 tags joined by `", "` with
`" (+<count-5> more)"` appended beyond 5 — amended so this joined string
is replaced by `"None"` when it is empty — and the Message cell collapsed
and truncated per C6. -/
theorem claim_C5_table_rendering
    (mid : Json) (m : List (String × Json)) (tags : List String) (msg : String)
    (htags : jget m "tags" = some (Json.arr (tags.map Json.str))
      ∨ (jget m "tags" = none ∧ tags = []))
    (hmsg : jget m "message" = some (Json.str msg)
      ∨ (jget m "message" = none ∧ msg = "")) :
    renderTable mid m = .ok (pyJoin "\n" (specTableLines mid m tags msg) ++ "\n") := by
  have hts : tagsStrOf m = .ok (tagsStrOfList tags) := by
    rcases htags with h | ⟨h, rfl⟩
    · simp [tagsStrOf, h, strListOf_map_str]
    · simp [tagsStrOf, h]
  have hmsg' : messageOf m = .ok msg := by
    rcases hmsg with h | ⟨h, rfl⟩
    · simp [messageOf, h]
    · simp [messageOf, h]
  rw [renderTable_reduce m (tagsStrOfList tags) msg mid hts hmsg']
  refine congrArg Except.ok ?_
  have hcell : (if tagsStrOfList tags = "" then "None" else tagsStrOfList tags)
      = specTagsCell tags := rfl
  rw [hcell, messageLine_spec]
  simp only [specTableLines, pyJoin, defaultGet]
  simp [← strAppend_assoc]

/-- Witness for C5: the spec's seven-tag record rendered through the
handler-level table formatter. -/
theorem claim_C5_table_rendering_witness :
    renderTable (Json.int 12345)
        [("name", Json.str "CPU High Alert"), ("type", Json.str "metric alert"),
         ("overall_state", Json.str "OK"),
         ("tags", Json.arr (["t1", "t2", "t3", "t4", "t5", "t6", "t7"].map Json.str)),
         ("message", Json.str "hello")]
      = .ok (pyJoin "\n" (specTableLines (Json.int 12345)
          [("name", Json.str "CPU High Alert"), ("type", Json.str "metric alert"),
           ("overall_state", Json.str "OK"),
           ("tags", Json.arr (["t1", "t2", "t3", "t4", "t5", "t6", "t7"].map Json.str)),
           ("message", Json.str "hello")]
          ["t1", "t2", "t3", "t4", "t5", "t6", "t7"] "hello") ++ "\n") := by
  exact claim_C5_table_rendering (Json.int 12345) _
    ["t1", "t2", "t3", "t4", "t5", "t6", "t7"] "hello" (Or.inl rfl) (Or.inl rfl)

/-! ## Round-trip machinery: decimal integers -/

theorem natDigitsAux_irrel (n : Nat) :
    ∀ f1 f2, n < f1 → n < f2 → natDigitsAux f1 n = natDigitsAux f2 n := by
  induction n using Nat.strong_induction_on with
  | _ n ih =>
    intro f1 f2 h1 h2
    cases f1 with
    | zero => omega
    | succ a =>
      cases f2 with
      | zero => omega
      | succ b =>
        simp only [natDigitsAux]
        by_cases h10 : n < 10
        · simp [h10]
        · simp only [h10, if_false]
          have hd : n / 10 < n := Nat.div_lt_self (by omega) (by omega)
          rw [ih (n / 10) hd a b (by omega) (by omega)]

theorem natDigits_unfold (n : Nat) :
    natDigits n = if n < 10 then [Nat.digitChar n]
      else natDigits (n / 10) ++ [Nat.digitChar (n % 10)] := by
  by_cases h : n < 10
  · simp [natDigits, natDigitsAux, h]
  · rw [if_neg h]
    show natDigitsAux (n + 1) n = natDigitsAux (n / 10 + 1) (n / 10) ++ [Nat.digitChar (n % 10)]
    conv_lhs => rw [natDigitsAux]
    rw [if_neg h]
    congr 1
    exact natDigitsAux_irrel (n / 10) n (n / 10 + 1)
      (by have := Nat.div_lt_self (show 0 < n by omega) (show 1 < 10 by omega); omega)
      (by omega)

theorem digitChar_isDigit : ∀ d, d < 10 → (Nat.digitChar d).isDigit = true := by decide

theorem digitChar_val : ∀ d, d < 10 → (Nat.digitChar d).toNat - 48 = d := by decide

theorem natDigits_ne_nil (n : Nat) : natDigits n ≠ [] := by
  rw [natDigits_unfold]
  by_cases h : n < 10 <;> simp [h]

theorem natDigits_all_digit (n : Nat) : ∀ c ∈ natDigits n, c.isDigit = true := by
  induction n using Nat.strong_induction_on with
  | _ n ih =>
    intro c hc
    rw [natDigits_unfold] at hc
    by_cases h : n < 10
    · rw [if_pos h] at hc
      simp at hc
      rw [hc]
      exact digitChar_isDigit n h
    · rw [if_neg h] at hc
      have hd : n / 10 < n := Nat.div_lt_self (by omega) (by omega)
      rcases List.mem_append.mp hc with h1 | h1
      · exact ih (n / 10) hd c h1
      · simp at h1
        rw [h1]
        exact digitChar_isDigit (n % 10) (by omega)

theorem digitsToNat_append_last (ds : List Char) (d : Char) :
    digitsToNat (ds ++ [d]) = digitsToNat ds * 10 + (d.toNat - 48) := by
  simp [digitsToNat, List.foldl_append]

theorem digitsToNat_natDigits (n : Nat) : digitsToNat (natDigits n) = n := by
  induction n using Nat.strong_induction_on with
  | _ n ih =>
    rw [natDigits_unfold]
    by_cases h : n < 10
    · simp [h, digitsToNat, digitChar_val n h]
    · have hd : n / 10 < n := Nat.div_lt_self (by omega) (by omega)
      rw [if_neg h, digitsToNat_append_last, ih (n / 10) hd,
        digitChar_val (n % 10) (by omega)]
      omega

theorem takeWhile_digits_append (ds rest : List Char)
    (h1 : ∀ c ∈ ds, c.isDigit = true) (h2 : noDigitHead rest) :
    (ds ++ rest).takeWhile (·.isDigit) = ds
    ∧ (ds ++ rest).dropWhile (·.isDigit) = rest := by
  induction ds with
  | nil =>
    cases rest with
    | nil => exact ⟨rfl, rfl⟩
    | cons c t =>
      have hc : c.isDigit = false := by
        simp only [noDigitHead] at h2
        simpa using h2
      simp [List.takeWhile_cons, List.dropWhile_cons, hc]
  | cons d ds ih =>
    have hd : d.isDigit = true := h1 d (by simp)
    have ih' := ih (fun c hc => h1 c (by simp [hc]))
    simp [List.takeWhile_cons, List.dropWhile_cons, hd, ih'.1, ih'.2]

theorem natDigits_isEmpty (n : Nat) : (natDigits n).isEmpty = false := by
  cases h : natDigits n with
  | nil => exact absurd h (natDigits_ne_nil n)
  | cons c cs => rfl

theorem parseNumber_intChars (n : Int) (rest : List Char) (h2 : noDigitHead rest) :
    parseNumber (intChars n ++ rest) = some (.int n, rest) := by
  by_cases hneg : n < 0
  · have hD := takeWhile_digits_append (natDigits (-n).toNat) rest
      (natDigits_all_digit (-n).toNat) h2
    have hin : intChars n ++ rest = '-' :: (natDigits (-n).toNat ++ rest) := by
      simp [intChars, hneg]
    rw [hin]
    simp only [parseNumber, if_true]
    simp only [hD.1, hD.2, natDigits_isEmpty, Bool.false_eq_true, if_false]
    have hv : -((digitsToNat (natDigits (-n).toNat) : Int)) = n := by
      rw [digitsToNat_natDigits]
      omega
    rw [hv]
  · have hD := takeWhile_digits_append (natDigits n.toNat) rest
      (natDigits_all_digit n.toNat) h2
    cases hcons : natDigits n.toNat with
    | nil => exact absurd hcons (natDigits_ne_nil n.toNat)
    | cons c cs =>
      have hcdig : c.isDigit = true := by
        apply natDigits_all_digit n.toNat
        rw [hcons]
        simp
      have hcne : ¬ (c = '-') := by
        intro hx
        rw [hx] at hcdig
        simp at hcdig
      have hin : intChars n ++ rest = c :: (cs ++ rest) := by
        simp [intChars, hneg, hcons]
      rw [hin]
      simp only [parseNumber]
      rw [if_neg hcne]
      have hform : c :: (cs ++ rest) = natDigits n.toNat ++ rest := by
        rw [hcons]
        rfl
      rw [hform]
      simp only [hD.1, hD.2, natDigits_isEmpty, Bool.false_eq_true, if_false]
      have hv : ((digitsToNat (natDigits n.toNat) : Int)) = n := by
        rw [digitsToNat_natDigits]
        omega
      rw [hv]

/-! ## Round-trip machinery: string escapes -/

theorem char_valid_nat (c : Char) :
    c.toNat < 0xd800 ∨ (0xdfff < c.toNat ∧ c.toNat < 0x110000) := c.valid

theorem hexVal_digitChar : ∀ d, d < 16 → hexVal (Nat.digitChar d) = some d := by decide

theorem parseHex4_hex4 (n : Nat) (rest : List Char) (h : n < 65536) :
    parseHex4 (hex4 n ++ rest) = some (n, rest) := by
  have e1 := hexVal_digitChar (n / 4096 % 16) (Nat.mod_lt _ (by omega))
  have e2 := hexVal_digitChar (n / 256 % 16) (Nat.mod_lt _ (by omega))
  have e3 := hexVal_digitChar (n / 16 % 16) (Nat.mod_lt _ (by omega))
  have e4 := hexVal_digitChar (n % 16) (Nat.mod_lt _ (by omega))
  simp only [hex4, List.cons_append, List.nil_append, parseHex4, e1, e2, e3, e4]
  have : n / 4096 % 16 * 4096 + n / 256 % 16 * 256 + n / 16 % 16 * 16 + n % 16 = n := by
    omega
  rw [this]

theorem escapeChar_length_pos (c : Char) : 1 ≤ (escapeChar c).length := by
  unfold escapeChar
  split_ifs <;> simp [hex4]

theorem escape_flatten_length (cs : List Char) :
    cs.length ≤ ((cs.map escapeChar).flatten).length := by
  induction cs with
  | nil => simp
  | cons c cs ih =>
    simp only [List.map_cons, List.flatten_cons, List.length_append, List.length_cons]
    have := escapeChar_length_pos c
    omega


theorem parseEsc_simple (e c : Char) (rest : List Char)
    (he : ¬ e = 'u') (h : unescape1 e = some c) :
    parseEsc (e :: rest) = some (c, rest) := by
  simp [parseEsc, he, h]

theorem parseEsc_u (c : Char) (rest : List Char) (h9 : c.toNat < 0x10000) :
    parseEsc ('u' :: (hex4 c.toNat ++ rest)) = some (c, rest) := by
  have hno : ¬ (0xd800 ≤ c.toNat ∧ c.toNat ≤ 0xdbff) := by
    rcases char_valid_nat c with hv | hv <;> omega
  have hno2 : ¬ (0xdc00 ≤ c.toNat ∧ c.toNat ≤ 0xdfff) := by
    rcases char_valid_nat c with hv | hv <;> omega
  simp [parseEsc, parseHex4_hex4 c.toNat rest h9, hno, hno2, Char.ofNat_toNat]

theorem parseEsc_pair (c : Char) (rest : List Char) (h9 : ¬ c.toNat < 0x10000) :
    parseEsc ('u' :: (hex4 (0xd800 + (c.toNat - 0x10000) / 0x400)
      ++ ('\\' :: 'u' :: (hex4 (0xdc00 + (c.toNat - 0x10000) % 0x400) ++ rest))))
      = some (c, rest) := by
  have hvn : c.toNat < 0x110000 := by
    rcases char_valid_nat c with hv | hv <;> omega
  have hhi : 0xd800 + (c.toNat - 0x10000) / 0x400 < 65536 := by omega
  have hlo : 0xdc00 + (c.toNat - 0x10000) % 0x400 < 65536 := by omega
  have hhir : 0xd800 ≤ 0xd800 + (c.toNat - 0x10000) / 0x400
      ∧ 0xd800 + (c.toNat - 0x10000) / 0x400 ≤ 0xdbff := by
    constructor <;> omega
  have hlor : 0xdc00 ≤ 0xdc00 + (c.toNat - 0x10000) % 0x400
      ∧ 0xdc00 + (c.toNat - 0x10000) % 0x400 ≤ 0xdfff := by
    constructor <;> omega
  simp only [parseEsc, if_pos rfl, parseHex4_hex4 _ _ hhi, parseHex4_hex4 _ _ hlo,
    if_pos hhir, if_pos hlor]
  simp only [and_self, if_true]
  have harith : 0x10000 + (0xd800 + (c.toNat - 0x10000) / 0x400 - 0xd800) * 0x400
      + (0xdc00 + (c.toNat - 0x10000) % 0x400 - 0xdc00) = c.toNat := by omega
  rw [harith, Char.ofNat_toNat]

theorem parse_escapeChar (c : Char) (rest : List Char) :
    (∃ t, escapeChar c = '\\' :: t ∧ parseEsc (t ++ rest) = some (c, rest))
    ∨ (escapeChar c = [c] ∧ ¬ c = '"' ∧ ¬ c = '\\') := by
  by_cases h1 : c = '"'
  · subst h1
    exact Or.inl ⟨['"'], rfl, parseEsc_simple '"' '"' rest (by decide) rfl⟩
  · by_cases h2 : c = '\\'
    · subst h2
      exact Or.inl ⟨['\\'], rfl, parseEsc_simple '\\' '\\' rest (by decide) rfl⟩
    · by_cases h3 : c = '\n'
      · subst h3
        exact Or.inl ⟨['n'], rfl, parseEsc_simple 'n' '\n' rest (by decide) rfl⟩
      · by_cases h4 : c = '\t'
        · subst h4
          exact Or.inl ⟨['t'], rfl, parseEsc_simple 't' '\t' rest (by decide) rfl⟩
        · by_cases h5 : c = '\r'
          · subst h5
            exact Or.inl ⟨['r'], rfl, parseEsc_simple 'r' '\r' rest (by decide) rfl⟩
          · by_cases h6 : c = '\x08'
            · subst h6
              exact Or.inl ⟨['b'], rfl, parseEsc_simple 'b' '\x08' rest (by decide) rfl⟩
            · by_cases h7 : c = '\x0c'
              · subst h7
                exact Or.inl ⟨['f'], rfl, parseEsc_simple 'f' '\x0c' rest (by decide) rfl⟩
              · by_cases h8 : c.toNat < 0x20 ∨ 0x7e < c.toNat
                · by_cases h9 : c.toNat < 0x10000
                  · refine Or.inl ⟨'u' :: hex4 c.toNat, ?_, ?_⟩
                    · simp [escapeChar, h1, h2, h3, h4, h5, h6, h7, h8, h9]
                    · rw [List.cons_append]
                      exact parseEsc_u c rest h9
                  · refine Or.inl ⟨'u' :: hex4 (0xd800 + (c.toNat - 0x10000) / 0x400)
                      ++ ('\\' :: 'u' :: hex4 (0xdc00 + (c.toNat - 0x10000) % 0x400)), ?_, ?_⟩
                    · simp [escapeChar, h1, h2, h3, h4, h5, h6, h7, h8, h9]
                    · simp only [List.cons_append, List.append_assoc, List.nil_append]
                      exact parseEsc_pair c rest h9
                · refine Or.inr ⟨?_, h1, h2⟩
                  simp [escapeChar, h1, h2, h3, h4, h5, h6, h7, h8]

theorem parseStrBody_step_esc (f : Nat) (t rest2 : List Char) (c2 : Char)
    (hesc : parseEsc t = some (c2, rest2)) (out r : List Char)
    (hrec : parseStrBody f rest2 = some (out, r)) :
    parseStrBody (f + 1) ('\\' :: t) = some (c2 :: out, r) := by
  simp [parseStrBody, hesc, hrec]

theorem parseStrBody_step_lit (f : Nat) (c : Char) (t : List Char)
    (h1 : ¬ c = '"') (h2 : ¬ c = '\\') (out r : List Char)
    (hrec : parseStrBody f t = some (out, r)) :
    parseStrBody (f + 1) (c :: t) = some (c :: out, r) := by
  simp [parseStrBody, h1, h2, hrec]

theorem parseStrBody_escape :
    ∀ (cs : List Char) (fuel : Nat) (rest : List Char), cs.length < fuel →
      parseStrBody fuel ((cs.map escapeChar).flatten ++ '"' :: rest) = some (cs, rest) := by
  intro cs
  induction cs with
  | nil =>
    intro fuel rest h
    cases fuel with
    | zero => omega
    | succ f => simp [parseStrBody]
  | cons c cs ih =>
    intro fuel rest h
    cases fuel with
    | zero => omega
    | succ f =>
      have hrec := ih f rest (by simpa using Nat.lt_of_succ_lt_succ h)
      rw [List.map_cons, List.flatten_cons, List.append_assoc]
      rcases parse_escapeChar c ((cs.map escapeChar).flatten ++ '"' :: rest)
        with ⟨t, he, hp⟩ | ⟨he, hq, hb⟩
      · rw [he, List.cons_append]
        exact parseStrBody_step_esc f _ _ c hp cs rest hrec
      · rw [he, List.cons_append, List.nil_append]
        exact parseStrBody_step_lit f c _ hq hb cs rest hrec

/-! ## Round-trip machinery: whitespace and token heads -/

theorem skipWs_cons_ws (c : Char) (s : List Char)
    (h : c = ' ' ∨ c = '\n' ∨ c = '\t' ∨ c = '\r') : skipWs (c :: s) = skipWs s := by
  simp [skipWs, h]

theorem skipWs_cons_not (c : Char) (s : List Char)
    (h : ¬ (c = ' ' ∨ c = '\n' ∨ c = '\t' ∨ c = '\r')) : skipWs (c :: s) = c :: s := by
  simp [skipWs, h]

theorem skipWs_spaces (n : Nat) (s : List Char) : skipWs (spaces n ++ s) = skipWs s := by
  induction n with
  | zero => rfl
  | succ m ih =>
    rw [spaces, List.replicate_succ, List.cons_append,
      skipWs_cons_ws ' ' _ (Or.inl rfl)]
    exact ih

theorem digit_head_facts (c : Char) (h : c.isDigit = true) :
    ¬ (c = ' ' ∨ c = '\n' ∨ c = '\t' ∨ c = '\r')
    ∧ ¬ c = '"' ∧ ¬ c = 'n' ∧ ¬ c = 't' ∧ ¬ c = 'f' ∧ ¬ c = '[' ∧ ¬ c = '\x7b' := by
  refine ⟨fun hx => ?_, fun hx => ?_, fun hx => ?_, fun hx => ?_, fun hx => ?_,
    fun hx => ?_, fun hx => ?_⟩
  · rcases hx with rfl | rfl | rfl | rfl <;> simp at h
  all_goals (subst hx; simp at h)

theorem intChars_ne_nil (n : Int) : intChars n ≠ [] := by
  unfold intChars
  split_ifs
  · simp
  · exact natDigits_ne_nil _

theorem dumpsVal_head (ind : Nat) (v : Json) :
    ∃ c t, dumpsVal ind v = c :: t
      ∧ ¬ (c = ' ' ∨ c = '\n' ∨ c = '\t' ∨ c = '\r')
      ∧ ¬ c = ']' ∧ ¬ c = '\x7d' := by
  cases v with
  | null => exact ⟨'n', ['u', 'l', 'l'], by simp [dumpsVal], by decide, by decide, by decide⟩
  | bool b =>
    cases b with
    | true => exact ⟨'t', ['r', 'u', 'e'], by simp [dumpsVal], by decide, by decide, by decide⟩
    | false =>
      exact ⟨'f', ['a', 'l', 's', 'e'], by simp [dumpsVal], by decide, by decide, by decide⟩
  | int n =>
    by_cases hn : n < 0
    · refine ⟨'-', natDigits (-n).toNat, ?_, by decide, by decide, by decide⟩
      simp [dumpsVal, intChars, hn]
    · cases hcons : natDigits n.toNat with
      | nil => exact absurd hcons (natDigits_ne_nil _)
      | cons c cs =>
        have hcdig : c.isDigit = true := by
          apply natDigits_all_digit n.toNat
          rw [hcons]
          simp
        refine ⟨c, cs, ?_, (digit_head_facts c hcdig).1, fun hx => ?_, fun hx => ?_⟩
        · simp [dumpsVal, intChars, hn, hcons]
        · subst hx
          simp at hcdig
        · subst hx
          simp at hcdig
  | str s =>
    exact ⟨'"', (s.data.map escapeChar).flatten ++ ['"'],
      by simp [dumpsVal, quoteStr], by decide, by decide, by decide⟩
  | arr xs =>
    cases xs with
    | nil => exact ⟨'[', [']'], by simp [dumpsVal], by decide, by decide, by decide⟩
    | cons x xs =>
      exact ⟨'[', '\n' :: (dumpsItems (ind + 2) x xs ++ '\n' :: (spaces ind ++ [']'])),
        by simp [dumpsVal], by decide, by decide, by decide⟩
  | obj kvs =>
    cases kvs with
    | nil => exact ⟨'\x7b', ['\x7d'], by simp [dumpsVal], by decide, by decide, by decide⟩
    | cons kv kvs =>
      exact ⟨'\x7b', '\n' :: (dumpsMembers (ind + 2) kv kvs ++ '\n' :: (spaces ind ++ ['\x7d'])),
        by simp [dumpsVal], by decide, by decide, by decide⟩

theorem skipWs_dumpsVal (ind : Nat) (v : Json) (rest : List Char) :
    skipWs (dumpsVal ind v ++ rest) = dumpsVal ind v ++ rest := by
  obtain ⟨c, t, he, hw, _, _⟩ := dumpsVal_head ind v
  rw [he, List.cons_append, skipWs_cons_not c _ hw]

theorem parseVal_congr_ws (f : Nat) (s t : List Char) (h : skipWs s = skipWs t) :
    parseVal f s = parseVal f t := by
  cases f with
  | zero => rfl
  | succ f =>
    simp only [parseVal]
    rw [h]

theorem jsonNodes_pos (v : Json) : 1 ≤ jsonNodes v := by
  cases v <;> simp [jsonNodes] <;> omega

/-! ## Round-trip machinery: one-token parser steps -/

theorem parseVal_null (f : Nat) (rest : List Char) :
    parseVal (f + 1) ('n' :: 'u' :: 'l' :: 'l' :: rest) = some (.null, rest) := by
  simp [parseVal, skipWs]

theorem parseVal_true (f : Nat) (rest : List Char) :
    parseVal (f + 1) ('t' :: 'r' :: 'u' :: 'e' :: rest) = some (.bool true, rest) := by
  simp [parseVal, skipWs]

theorem parseVal_false (f : Nat) (rest : List Char) :
    parseVal (f + 1) ('f' :: 'a' :: 'l' :: 's' :: 'e' :: rest) = some (.bool false, rest) := by
  simp [parseVal, skipWs]

theorem parseVal_int (f : Nat) (n : Int) (rest : List Char) (hd : noDigitHead rest) :
    parseVal (f + 1) (intChars n ++ rest) = some (.int n, rest) := by
  by_cases hn : n < 0
  · have hin : intChars n ++ rest = '-' :: (natDigits (-n).toNat ++ rest) := by
      simp [intChars, hn]
    rw [hin]
    simp only [parseVal, skipWs_cons_not '-' _ (by decide)]
    rw [if_neg (by decide), if_neg (by decide), if_neg (by decide), if_neg (by decide),
      if_neg (by decide), if_neg (by decide)]
    rw [show '-' :: (natDigits (-n).toNat ++ rest) = intChars n ++ rest from hin.symm]
    exact parseNumber_intChars n rest hd
  · cases hcons : natDigits n.toNat with
    | nil => exact absurd hcons (natDigits_ne_nil _)
    | cons c cs =>
      have hcdig : c.isDigit = true := by
        apply natDigits_all_digit n.toNat
        rw [hcons]
        simp
      obtain ⟨hw, hq, hnn, ht, hf, hbr, hbc⟩ := digit_head_facts c hcdig
      have hin : intChars n ++ rest = c :: (cs ++ rest) := by
        simp [intChars, hn, hcons]
      rw [hin]
      simp only [parseVal, skipWs_cons_not c _ hw]
      rw [if_neg hq, if_neg hnn, if_neg ht, if_neg hf, if_neg hbr, if_neg hbc]
      rw [show c :: (cs ++ rest) = intChars n ++ rest from hin.symm]
      exact parseNumber_intChars n rest hd

theorem parseVal_str (f : Nat) (s : String) (rest : List Char) :
    parseVal (f + 1) (quoteStr s ++ rest) = some (.str s, rest) := by
  have hq : quoteStr s ++ rest
      = '"' :: ((s.data.map escapeChar).flatten ++ '"' :: rest) := by
    simp [quoteStr]
  rw [hq]
  simp only [parseVal, skipWs_cons_not '"' _ (by decide), if_true]
  rw [parseStrBody_escape s.data _ rest (by
    have h1 := escape_flatten_length s.data
    rw [List.length_append]
    simp only [List.length_cons]
    omega)]

theorem parseVal_arrNil (f : Nat) (rest : List Char) :
    parseVal (f + 1) ('[' :: ']' :: rest) = some (.arr [], rest) := by
  simp [parseVal, skipWs]

theorem parseVal_objNil (f : Nat) (rest : List Char) :
    parseVal (f + 1) ('\x7b' :: '\x7d' :: rest) = some (.obj [], rest) := by
  simp [parseVal, skipWs]

theorem parseVal_arr_step (f : Nat) (rest0 t0 : List Char) (c0 : Char)
    (hsk : skipWs rest0 = c0 :: t0) (hne : ¬ c0 = ']')
    (xs : List Json) (r : List Char) (hit : parseItems f rest0 = some (xs, r)) :
    parseVal (f + 1) ('[' :: rest0) = some (.arr xs, r) := by
  simp only [parseVal, skipWs_cons_not '[' _ (by decide)]
  simp [hsk, hne, hit]

theorem parseVal_obj_step (f : Nat) (rest0 t0 : List Char) (c0 : Char)
    (hsk : skipWs rest0 = c0 :: t0) (hne : ¬ c0 = '\x7d')
    (kvs : List (String × Json)) (r : List Char)
    (hit : parseMembers f rest0 = some (kvs, r)) :
    parseVal (f + 1) ('\x7b' :: rest0) = some (.obj kvs, r) := by
  simp only [parseVal, skipWs_cons_not '\x7b' _ (by decide)]
  simp [hsk, hne, hit]

theorem parseItems_last (f : Nat) (s T rest : List Char) (v : Json)
    (hv : parseVal f s = some (v, T)) (hT : skipWs T = ']' :: rest) :
    parseItems (f + 1) s = some ([v], rest) := by
  simp [parseItems, hv, hT]

theorem parseItems_cons (f : Nat) (s T r2 rest : List Char) (v : Json) (xs : List Json)
    (hv : parseVal f s = some (v, T)) (hT : skipWs T = ',' :: r2)
    (hrest : parseItems f r2 = some (xs, rest)) :
    parseItems (f + 1) s = some (v :: xs, rest) := by
  simp [parseItems, hv, hT, hrest]

theorem parseMembers_last (f : Nat) (s bodyr r2 T r3 rest : List Char)
    (k : String) (v : Json)
    (hsk : skipWs s = '"' :: bodyr)
    (hkey : parseStrBody (bodyr.length + 1) bodyr = some (k.data, r2))
    (hcol : skipWs r2 = ':' :: T)
    (hv : parseVal f T = some (v, r3))
    (hend : skipWs r3 = '\x7d' :: rest) :
    parseMembers (f + 1) s = some ([(k, v)], rest) := by
  simp [parseMembers, hsk, hkey, hcol, hv, hend]

theorem parseMembers_cons (f : Nat) (s bodyr r2 T r3 r4 rest : List Char)
    (k : String) (v : Json) (kvs : List (String × Json))
    (hsk : skipWs s = '"' :: bodyr)
    (hkey : parseStrBody (bodyr.length + 1) bodyr = some (k.data, r2))
    (hcol : skipWs r2 = ':' :: T)
    (hv : parseVal f T = some (v, r3))
    (hcomma : skipWs r3 = ',' :: r4)
    (hrest : parseMembers f r4 = some (kvs, rest)) :
    parseMembers (f + 1) s = some ((k, v) :: kvs, rest) := by
  simp [parseMembers, hsk, hkey, hcol, hv, hcomma, hrest]

theorem skipWs_close (n : Nat) (c : Char) (rest : List Char)
    (hc : ¬ (c = ' ' ∨ c = '\n' ∨ c = '\t' ∨ c = '\r')) :
    skipWs ('\n' :: (spaces n ++ c :: rest)) = c :: rest := by
  rw [skipWs_cons_ws '\n' _ (by decide), skipWs_spaces, skipWs_cons_not c _ hc]

theorem dumpsItems_shape (ind : Nat) (x : Json) (xs : List Json) (T : List Char) :
    (xs = [] ∧ dumpsItems ind x xs ++ T = spaces ind ++ (dumpsVal ind x ++ T))
    ∨ (∃ y ys, xs = y :: ys ∧ dumpsItems ind x xs ++ T
        = spaces ind ++ (dumpsVal ind x
          ++ ',' :: '\n' :: (dumpsItems ind y ys ++ T))) := by
  cases xs with
  | nil =>
    refine Or.inl ⟨rfl, ?_⟩
    rw [show dumpsItems ind x [] = spaces ind ++ dumpsVal ind x by simp [dumpsItems]]
    simp [List.append_assoc]
  | cons y ys =>
    refine Or.inr ⟨y, ys, rfl, ?_⟩
    rw [show dumpsItems ind x (y :: ys)
        = spaces ind ++ (dumpsVal ind x ++ ',' :: '\n' :: dumpsItems ind y ys) by
      simp [dumpsItems]]
    simp [List.append_assoc]

theorem dumpsMembers_shape (ind : Nat) (k : String) (v : Json)
    (kvs : List (String × Json)) (T : List Char) :
    (kvs = [] ∧ dumpsMembers ind (k, v) kvs ++ T
      = spaces ind ++ ('"' :: ((k.data.map escapeChar).flatten
        ++ '"' :: (':' :: ' ' :: (dumpsVal ind v ++ T)))))
    ∨ (∃ kv2 kvs2, kvs = kv2 :: kvs2 ∧ dumpsMembers ind (k, v) kvs ++ T
      = spaces ind ++ ('"' :: ((k.data.map escapeChar).flatten
        ++ '"' :: (':' :: ' ' :: (dumpsVal ind v
          ++ ',' :: '\n' :: (dumpsMembers ind kv2 kvs2 ++ T)))))) := by
  cases kvs with
  | nil =>
    refine Or.inl ⟨rfl, ?_⟩
    rw [show dumpsMembers ind (k, v) []
        = spaces ind ++ (quoteStr k ++ ':' :: ' ' :: dumpsVal ind v) by simp [dumpsMembers]]
    simp [quoteStr, List.append_assoc]
  | cons kv2 kvs2 =>
    refine Or.inr ⟨kv2, kvs2, rfl, ?_⟩
    rw [show dumpsMembers ind (k, v) (kv2 :: kvs2)
        = spaces ind ++ (quoteStr k ++ ':' :: ' '
          :: (dumpsVal ind v ++ ',' :: '\n' :: dumpsMembers ind kv2 kvs2)) by
      simp [dumpsMembers]]
    simp [quoteStr, List.append_assoc]

theorem skipWs_items_ex (ind : Nat) (x : Json) (xs : List Json) (T : List Char) :
    ∃ X, skipWs ('\n' :: (dumpsItems ind x xs ++ T)) = dumpsVal ind x ++ X := by
  rcases dumpsItems_shape ind x xs T with ⟨_, hsh⟩ | ⟨y, ys, _, hsh⟩ <;>
    exact ⟨_, by rw [skipWs_cons_ws '\n' _ (by decide), hsh, skipWs_spaces, skipWs_dumpsVal]⟩

theorem skipWs_members_ex (ind : Nat) (k : String) (v : Json)
    (kvs : List (String × Json)) (T : List Char) :
    ∃ X, skipWs ('\n' :: (dumpsMembers ind (k, v) kvs ++ T))
      = '"' :: ((k.data.map escapeChar).flatten ++ '"' :: X) := by
  rcases dumpsMembers_shape ind k v kvs T with ⟨_, hsh⟩ | ⟨kv2, kvs2, _, hsh⟩ <;>
    exact ⟨_, by rw [skipWs_cons_ws '\n' _ (by decide), hsh, skipWs_spaces,
      skipWs_cons_not '"' _ (by decide)]⟩

theorem strBody_fuel (k : String) (r2 : List Char) :
    k.data.length < ((k.data.map escapeChar).flatten ++ '"' :: r2).length + 1 := by
  have h1 := escape_flatten_length k.data
  rw [List.length_append]
  simp only [List.length_cons]
  omega

theorem parse_dumps_all : ∀ fuel : Nat,
    (∀ v ind rest, jsonNodes v ≤ fuel → noDigitHead rest →
      parseVal fuel (dumpsVal ind v ++ rest) = some (v, rest))
    ∧ (∀ x xs ind ind2 rest, jsonNodes x + nodesList xs + 1 ≤ fuel →
      parseItems fuel ('\n' :: (dumpsItems ind x xs ++ '\n' :: (spaces ind2 ++ ']' :: rest)))
        = some (x :: xs, rest))
    ∧ (∀ (kv : String × Json) kvs ind ind2 rest,
        jsonNodes kv.2 + nodesMembers kvs + 1 ≤ fuel →
      parseMembers fuel
          ('\n' :: (dumpsMembers ind kv kvs ++ '\n' :: (spaces ind2 ++ '\x7d' :: rest)))
        = some (kv :: kvs, rest)) := by
  intro fuel
  induction fuel using Nat.strong_induction_on with
  | _ fuel ih =>
    cases fuel with
    | zero =>
      refine ⟨fun v ind rest hn _ => ?_, fun x xs ind ind2 rest hb => ?_,
        fun kv kvs ind ind2 rest hb => ?_⟩
      · have := jsonNodes_pos v
        omega
      · omega
      · omega
    | succ f =>
      obtain ⟨ihP, ihQ, ihR⟩ := ih f (Nat.lt_succ_self f)
      refine ⟨fun v ind rest hn hd => ?_, fun x xs ind ind2 rest hb => ?_,
        fun kv kvs ind ind2 rest hb => ?_⟩
      · -- parseVal on a dumped value
        cases v with
        | null =>
          rw [show dumpsVal ind Json.null ++ rest = 'n' :: 'u' :: 'l' :: 'l' :: rest by
            simp [dumpsVal]]
          exact parseVal_null f rest
        | bool b =>
          cases b with
          | true =>
            rw [show dumpsVal ind (Json.bool true) ++ rest = 't' :: 'r' :: 'u' :: 'e' :: rest by
              simp [dumpsVal]]
            exact parseVal_true f rest
          | false =>
            rw [show dumpsVal ind (Json.bool false) ++ rest
                = 'f' :: 'a' :: 'l' :: 's' :: 'e' :: rest by simp [dumpsVal]]
            exact parseVal_false f rest
        | int n =>
          rw [show dumpsVal ind (Json.int n) ++ rest = intChars n ++ rest by simp [dumpsVal]]
          exact parseVal_int f n rest hd
        | str s =>
          rw [show dumpsVal ind (Json.str s) ++ rest = quoteStr s ++ rest by simp [dumpsVal]]
          exact parseVal_str f s rest
        | arr xs =>
          cases xs with
          | nil =>
            rw [show dumpsVal ind (Json.arr []) ++ rest = '[' :: ']' :: rest by simp [dumpsVal]]
            exact parseVal_arrNil f rest
          | cons x xs =>
            rw [show dumpsVal ind (Json.arr (x :: xs)) ++ rest
                = '[' :: ('\n' :: (dumpsItems (ind + 2) x xs
                  ++ '\n' :: (spaces ind ++ ']' :: rest))) by
              simp [dumpsVal, List.append_assoc]]
            obtain ⟨X, hskX⟩ :=
              skipWs_items_ex (ind + 2) x xs ('\n' :: (spaces ind ++ ']' :: rest))
            obtain ⟨c0, t0, he0, _, hbr0, _⟩ := dumpsVal_head (ind + 2) x
            rw [he0, List.cons_append] at hskX
            have hbound : jsonNodes x + nodesList xs + 1 ≤ f := by
              simp [jsonNodes, nodesList] at hn
              omega
            exact parseVal_arr_step f _ _ c0 hskX hbr0 (x :: xs) rest
              (ihQ x xs (ind + 2) ind rest hbound)
        | obj kvs =>
          cases kvs with
          | nil =>
            rw [show dumpsVal ind (Json.obj []) ++ rest = '\x7b' :: '\x7d' :: rest by
              simp [dumpsVal]]
            exact parseVal_objNil f rest
          | cons kv kvs =>
            obtain ⟨k, v⟩ := kv
            rw [show dumpsVal ind (Json.obj ((k, v) :: kvs)) ++ rest
                = '\x7b' :: ('\n' :: (dumpsMembers (ind + 2) (k, v) kvs
                  ++ '\n' :: (spaces ind ++ '\x7d' :: rest))) by
              simp [dumpsVal, List.append_assoc]]
            obtain ⟨X, hskX⟩ :=
              skipWs_members_ex (ind + 2) k v kvs ('\n' :: (spaces ind ++ '\x7d' :: rest))
            have hbound : jsonNodes v + nodesMembers kvs + 1 ≤ f := by
              simp [jsonNodes, nodesMembers] at hn
              omega
            exact parseVal_obj_step f _ _ '"' hskX (by decide) ((k, v) :: kvs) rest
              (ihR (k, v) kvs (ind + 2) ind rest hbound)
      · -- parseItems on dumped items
        rcases dumpsItems_shape ind x xs ('\n' :: (spaces ind2 ++ ']' :: rest))
          with ⟨hxs, hsh⟩ | ⟨y, ys, hxs, hsh⟩
        · subst hxs
          have hsk : skipWs ('\n' :: (dumpsItems ind x []
              ++ '\n' :: (spaces ind2 ++ ']' :: rest)))
              = dumpsVal ind x ++ ('\n' :: (spaces ind2 ++ ']' :: rest)) := by
            rw [skipWs_cons_ws '\n' _ (by decide), hsh, skipWs_spaces, skipWs_dumpsVal]
          have hv : parseVal f ('\n' :: (dumpsItems ind x []
              ++ '\n' :: (spaces ind2 ++ ']' :: rest)))
              = some (x, '\n' :: (spaces ind2 ++ ']' :: rest)) := by
            rw [parseVal_congr_ws f _ (dumpsVal ind x ++ ('\n' :: (spaces ind2 ++ ']' :: rest)))
              (by rw [hsk, skipWs_dumpsVal])]
            refine ihP x ind _ ?_ (by simp [noDigitHead])
            simp [nodesList] at hb
            omega
          exact parseItems_last f _ _ rest x hv (skipWs_close ind2 ']' rest (by decide))
        · subst hxs
          have hsk : skipWs ('\n' :: (dumpsItems ind x (y :: ys)
              ++ '\n' :: (spaces ind2 ++ ']' :: rest)))
              = dumpsVal ind x ++ (',' :: '\n' :: (dumpsItems ind y ys
                ++ '\n' :: (spaces ind2 ++ ']' :: rest))) := by
            rw [skipWs_cons_ws '\n' _ (by decide), hsh, skipWs_spaces, skipWs_dumpsVal]
          have hv : parseVal f ('\n' :: (dumpsItems ind x (y :: ys)
              ++ '\n' :: (spaces ind2 ++ ']' :: rest)))
              = some (x, ',' :: '\n' :: (dumpsItems ind y ys
                ++ '\n' :: (spaces ind2 ++ ']' :: rest))) := by
            rw [parseVal_congr_ws f _ (dumpsVal ind x ++ (',' :: '\n' :: (dumpsItems ind y ys
                ++ '\n' :: (spaces ind2 ++ ']' :: rest))))
              (by rw [hsk, skipWs_dumpsVal])]
            refine ihP x ind _ ?_ (by simp [noDigitHead])
            have hp := jsonNodes_pos y
            simp [nodesList] at hb
            omega
          have hrest : parseItems f ('\n' :: (dumpsItems ind y ys
              ++ '\n' :: (spaces ind2 ++ ']' :: rest))) = some (y :: ys, rest) := by
            refine ihQ y ys ind ind2 rest ?_
            have hp := jsonNodes_pos x
            simp [nodesList] at hb
            omega
          exact parseItems_cons f _ _ _ rest x (y :: ys) hv
            (skipWs_cons_not ',' _ (by decide)) hrest
      · -- parseMembers on dumped members
        obtain ⟨k, v⟩ := kv
        rcases dumpsMembers_shape ind k v kvs ('\n' :: (spaces ind2 ++ '\x7d' :: rest))
          with ⟨hkvs, hsh⟩ | ⟨kv2, kvs2, hkvs, hsh⟩
        · subst hkvs
          have hsk : skipWs ('\n' :: (dumpsMembers ind (k, v) []
              ++ '\n' :: (spaces ind2 ++ '\x7d' :: rest)))
              = '"' :: ((k.data.map escapeChar).flatten ++ '"' :: (':' :: ' '
                :: (dumpsVal ind v ++ '\n' :: (spaces ind2 ++ '\x7d' :: rest)))) := by
            rw [skipWs_cons_ws '\n' _ (by decide), hsh, skipWs_spaces,
              skipWs_cons_not '"' _ (by decide)]
          have hv : parseVal f (' ' :: (dumpsVal ind v
              ++ '\n' :: (spaces ind2 ++ '\x7d' :: rest)))
              = some (v, '\n' :: (spaces ind2 ++ '\x7d' :: rest)) := by
            rw [parseVal_congr_ws f _ (dumpsVal ind v
                ++ '\n' :: (spaces ind2 ++ '\x7d' :: rest))
              (by rw [skipWs_cons_ws ' ' _ (Or.inl rfl), skipWs_dumpsVal])]
            refine ihP v ind _ ?_ (by simp [noDigitHead])
            simp [nodesMembers] at hb
            omega
          exact parseMembers_last f _ _ _ _ _ rest k v hsk
            (parseStrBody_escape k.data _ _ (strBody_fuel k _)) 
            (skipWs_cons_not ':' _ (by decide)) hv
            (skipWs_close ind2 '\x7d' rest (by decide))
        · subst hkvs
          obtain ⟨k2, v2⟩ := kv2
          have hsk : skipWs ('\n' :: (dumpsMembers ind (k, v) ((k2, v2) :: kvs2)
              ++ '\n' :: (spaces ind2 ++ '\x7d' :: rest)))
              = '"' :: ((k.data.map escapeChar).flatten ++ '"' :: (':' :: ' '
                :: (dumpsVal ind v ++ ',' :: '\n' :: (dumpsMembers ind (k2, v2) kvs2
                  ++ '\n' :: (spaces ind2 ++ '\x7d' :: rest))))) := by
            rw [skipWs_cons_ws '\n' _ (by decide), hsh, skipWs_spaces,
              skipWs_cons_not '"' _ (by decide)]
          have hv : parseVal f (' ' :: (dumpsVal ind v
              ++ ',' :: '\n' :: (dumpsMembers ind (k2, v2) kvs2
                ++ '\n' :: (spaces ind2 ++ '\x7d' :: rest))))
              = some (v, ',' :: '\n' :: (dumpsMembers ind (k2, v2) kvs2
                ++ '\n' :: (spaces ind2 ++ '\x7d' :: rest))) := by
            rw [parseVal_congr_ws f _ (dumpsVal ind v
                ++ ',' :: '\n' :: (dumpsMembers ind (k2, v2) kvs2
                  ++ '\n' :: (spaces ind2 ++ '\x7d' :: rest)))
              (by rw [skipWs_cons_ws ' ' _ (Or.inl rfl), skipWs_dumpsVal])]
            refine ihP v ind _ ?_ (by simp [noDigitHead])
            have hp := jsonNodes_pos v2
            simp [nodesMembers] at hb
            omega
          have hrest : parseMembers f ('\n' :: (dumpsMembers ind (k2, v2) kvs2
              ++ '\n' :: (spaces ind2 ++ '\x7d' :: rest)))
              = some ((k2, v2) :: kvs2, rest) := by
            refine ihR (k2, v2) kvs2 ind ind2 rest ?_
            show jsonNodes v2 + nodesMembers kvs2 + 1 ≤ f
            have hp := jsonNodes_pos v
            simp [nodesMembers] at hb
            omega
          exact parseMembers_cons f _ _ _ _ _ _ rest k v ((k2, v2) :: kvs2) hsk
            (parseStrBody_escape k.data _ _ (strBody_fuel k _))
            (skipWs_cons_not ':' _ (by decide)) hv
            (skipWs_cons_not ',' _ (by decide)) hrest

theorem dumps_len_all : ∀ n : Nat,
    (∀ v ind, jsonNodes v ≤ n → jsonNodes v ≤ (dumpsVal ind v).length)
    ∧ (∀ x xs ind, jsonNodes x + nodesList xs ≤ n →
        jsonNodes x + nodesList xs ≤ (dumpsItems ind x xs).length)
    ∧ (∀ (kv : String × Json) kvs ind, jsonNodes kv.2 + nodesMembers kvs ≤ n →
        jsonNodes kv.2 + nodesMembers kvs ≤ (dumpsMembers ind kv kvs).length) := by
  intro n
  induction n using Nat.strong_induction_on with
  | _ n ih =>
  cases n with
  | zero =>
    refine ⟨fun v ind hn => ?_, fun x xs ind hS => ?_, fun kv kvs ind hS => ?_⟩
    · have := jsonNodes_pos v
      omega
    · have := jsonNodes_pos x
      omega
    · have := jsonNodes_pos kv.2
      omega
  | succ n =>
    obtain ⟨ihP, ihQ, ihR⟩ := ih n (Nat.lt_succ_self n)
    have hP : ∀ v ind, jsonNodes v ≤ n + 1 → jsonNodes v ≤ (dumpsVal ind v).length := by
      intro v ind hn
      cases v with
      | null => simp [dumpsVal, jsonNodes]
      | bool b => cases b <;> simp [dumpsVal, jsonNodes]
      | int m =>
        have h := List.length_pos.mpr (intChars_ne_nil m)
        simp only [dumpsVal, jsonNodes]
        omega
      | str s =>
        simp [dumpsVal, jsonNodes, quoteStr]
      | arr xs =>
        cases xs with
        | nil => simp [dumpsVal, jsonNodes, nodesList]
        | cons x xs =>
          have hlt : jsonNodes x + nodesList xs ≤ n := by
            simp [jsonNodes, nodesList] at hn
            omega
          have hq := ihQ x xs (ind + 2) hlt
          simp [dumpsVal, jsonNodes, nodesList]
          omega
      | obj kvs =>
        cases kvs with
        | nil => simp [dumpsVal, jsonNodes, nodesMembers]
        | cons kv kvs =>
          obtain ⟨k, v⟩ := kv
          have hlt : jsonNodes v + nodesMembers kvs ≤ n := by
            simp [jsonNodes, nodesMembers] at hn
            omega
          have hr : jsonNodes v + nodesMembers kvs
              ≤ (dumpsMembers (ind + 2) (k, v) kvs).length :=
            ihR (k, v) kvs (ind + 2)
              (by show jsonNodes v + nodesMembers kvs ≤ n; exact hlt)
          simp [dumpsVal, jsonNodes, nodesMembers]
          omega
    refine ⟨hP, fun x xs ind hS => ?_, fun kv kvs ind hS => ?_⟩
    · cases xs with
      | nil =>
        have h1 := hP x ind (by simp [nodesList] at hS; simpa using hS)
        simp [dumpsItems, nodesList]
        omega
      | cons y ys =>
        have hy := jsonNodes_pos y
        have hx := jsonNodes_pos x
        simp only [nodesList] at hS
        have h1 := hP x ind (by omega)
        have h2 := ihQ y ys ind (by omega)
        simp [dumpsItems, nodesList]
        omega
    · obtain ⟨k, v⟩ := kv
      cases kvs with
      | nil =>
        have h1 := hP v ind (by simp [nodesMembers] at hS; simpa using hS)
        simp [dumpsMembers, nodesMembers, quoteStr]
        omega
      | cons kv2 kvs2 =>
        obtain ⟨k2, v2⟩ := kv2
        have hv := jsonNodes_pos v
        have hv2 := jsonNodes_pos v2
        simp only [nodesMembers] at hS
        have h1 := hP v ind (by omega)
        have h2 : jsonNodes v2 + nodesMembers kvs2 ≤ (dumpsMembers ind (k2, v2) kvs2).length :=
          ihR (k2, v2) kvs2 ind (by show jsonNodes v2 + nodesMembers kvs2 ≤ n; omega)
        simp [dumpsMembers, nodesMembers, quoteStr]
        omega

theorem jsonParse_dumps (v : Json) : jsonParse (dumps v) = some v := by
  have hlen : jsonNodes v ≤ (dumpsVal 0 v).length :=
    (dumps_len_all (jsonNodes v)).1 v 0 le_rfl
  have h := (parse_dumps_all ((dumpsVal 0 v).length + 1)).1 v 0 []
    (by omega) (by simp [noDigitHead])
  rw [List.append_nil] at h
  have hje : jsonParse (dumps v)
      = match parseVal ((dumpsVal 0 v).length + 1) (dumpsVal 0 v) with
        | some (w, rest) => if (skipWs rest).isEmpty then some w else none
        | none => none := rfl
  rw [hje, h]
  simp [skipWs]

/-- C8: round-trip.  For every fetched monitor record `m`, a validated
`get_monitor` call with `format="json"` renders the record as
`json.dumps(monitor, indent=2)` with the error flag clear, and parsing
that rendered text back yields the original record unchanged (hence every
key field — id, name, priority, … — is unchanged). -/
theorem claim_C8_json_roundtrip (a : List (String × Json)) (mid : Json)
    (m : List (String × Json))
    (hmid : jget a "monitor_id" = some mid) (hnn : mid ≠ Json.null)
    (hfmt : jget a "format" = some (Json.str "json")) :
    getMonitorHandleCall (some a) (RemoteOutcome.ok m)
      = (⟨dumps (Json.obj m), false⟩, some mid)
    ∧ jsonParse (dumps (Json.obj m)) = some (Json.obj m) := by
  refine ⟨?_, jsonParse_dumps (Json.obj m)⟩
  rw [getMonitor_valid a mid _ hmid hnn]
  simp [hfmt, isJsonFormat]

theorem claim_C8_json_roundtrip_witness :
    getMonitorHandleCall
        (some [("monitor_id", Json.int 12345), ("format", Json.str "json")])
        (RemoteOutcome.ok [("id", Json.int 12345),
          ("name", Json.str "CPU High Alert"), ("priority", Json.int 3)])
      = (⟨dumps (Json.obj [("id", Json.int 12345),
          ("name", Json.str "CPU High Alert"), ("priority", Json.int 3)]), false⟩,
         some (Json.int 12345))
    ∧ jsonParse (dumps (Json.obj [("id", Json.int 12345),
        ("name", Json.str "CPU High Alert"), ("priority", Json.int 3)]))
      = some (Json.obj [("id", Json.int 12345),
          ("name", Json.str "CPU High Alert"), ("priority", Json.int 3)]) :=
  claim_C8_json_roundtrip
    [("monitor_id", Json.int 12345), ("format", Json.str "json")]
    (Json.int 12345)
    [("id", Json.int 12345), ("name", Json.str "CPU High Alert"),
      ("priority", Json.int 3)]
    rfl (fun h => Json.noConfusion h) rfl
